import Mathlib

/-!
# Session logic of the relay bouncer (`bouncer.go`)

A shallow embedding of the `Session` type of `bouncer.go` and of its methods.

* A decoded message (`[]interface{}`) is a `List JSON`; a `nil` slice is `none`.
* Go maps keyed by strings are association lists read through `GoMap.get`
  (first binding wins), written through `GoMap.set` and `GoMap.delete`.
* The channel `UpstreamMessage` is the list of messages sent on it, oldest first.
* A `wsjson.Write` on a backend connection is recorded in `Wire`, a log of
  `(connection, message)` pairs, oldest first. Inside one `Broadcast` the
  connections are written in the order of `Relays`, and `OpenSubscriptions`
  replays the subscriptions in the order of `Sub_IDs`; Go leaves both orders
  unspecified, and no statement below depends on them.
* A run-time panic (index out of range, failed type assertion) is `none`.
* Every method runs atomically: the mutexes of the source make `HasEvent` and
  `HandleUpstreamEOSE` atomic, and the client-facing methods are issued one at a
  time; interleavings inside a method are outside this model.
-/

namespace Bouncer

/-- A decoded JSON value, as `encoding/json` stores it in an `interface{}`. The
session never inspects a number, which is kept as an integer here. -/
inductive JSON where
  | null : JSON
  | bool (b : Bool) : JSON
  | num (n : Int) : JSON
  | str (s : String) : JSON
  | arr (xs : List JSON) : JSON
  | obj (kvs : List (String × JSON)) : JSON

/-- A Go map with string keys. -/
abbrev GoMap (V : Type) := List (String × V)

namespace GoMap

/-- The lookup `v, ok := m[k]`. -/
def get {V : Type} : GoMap V → String → Option V
  | [], _ => none
  | (k1, v) :: m, k => if k1 = k then some v else get m k

/-- The statement `delete(m, k)`. -/
def delete {V : Type} (m : GoMap V) (k : String) : GoMap V :=
  m.filter (fun p => decide (p.1 ≠ k))

/-- The assignment `m[k] = v`. -/
def set {V : Type} (m : GoMap V) (k : String) (v : V) : GoMap V :=
  (k, v) :: delete m k

end GoMap

/-- The global `config`, of which only `config.Relays` is read. -/
structure Config where
  Relays : List String

/-- The `Session` struct. `Relays` holds the identities of the registered
connections; the mutexes, `ClientIP`, `CancelZone` and `Done` carry no data the
methods below branch on. -/
structure Session where
  Sub_IDs : GoMap (List JSON)
  Event_IDs : GoMap (Finset String)
  PendingEOSE : GoMap Int
  Relays : List Nat
  UpstreamMessage : List (List JSON)
  Wire : List (Nat × List JSON)
  ready : Bool
  destroyed : Bool

/-- Go `int` arithmetic on a 64-bit platform: the value of an `int` expression after
wrap-around. -/
def wrapInt (x : Int) : Int := (x + 2 ^ 63) % 2 ^ 64 - 2 ^ 63

/-- The method `WriteJSON`: the message is sent on `UpstreamMessage`. -/
def WriteJSON (s : Session) (data : List JSON) : Session :=
  { s with UpstreamMessage := s.UpstreamMessage ++ [data] }

/-- The method `Broadcast`: the message is written to every connection of `s.Relays`. -/
def Broadcast (s : Session) (data : List JSON) : Session :=
  { s with Wire := s.Wire ++ s.Relays.map (fun relay => (relay, data)) }

/-- The method `StartConnect` launches one `NewConn` worker per configured relay; what the
workers do afterwards is the steps `NewConn_dial` and `NewConn_route`. -/
def StartConnect (_config : Config) (s : Session) : Session := s

/-- The method `HasEvent`: the new session and the returned boolean. -/
def HasEvent (s : Session) (subid event_id : String) : Session × Bool :=
  match s.Event_IDs.get subid with
  | none => (s, true)
  | some events =>
    let ok : Bool := decide (event_id ∈ events)
    let events1 : Finset String := if ok then events else insert event_id events
    let s1 : Session :=
      if ok then s else { s with Event_IDs := s.Event_IDs.set subid events1 }
    if events1.card > 500 then
      match s1.PendingEOSE.get subid with
      | some _ =>
        (WriteJSON { s1 with PendingEOSE := s1.PendingEOSE.delete subid }
          [JSON.str "EOSE", JSON.str subid], ok)
      | none => (s1, ok)
    else (s1, ok)

/-- The method `HandleUpstreamEVENT`; the record is `data`. -/
def HandleUpstreamEVENT (s : Session) (data : List JSON) : Option Session :=
  match data with
  | _ :: d1 :: d2 :: _ =>
    match d1 with
    | JSON.str subid =>
      match s.Sub_IDs.get subid with
      | none => some s
      | some _ =>
        match d2 with
        | JSON.obj event =>
          match GoMap.get event "id" with
          | some (JSON.str event_id) =>
            if (HasEvent s subid event_id).2 then some (HasEvent s subid event_id).1
            else some (WriteJSON (HasEvent s subid event_id).1 data)
          | _ => none
        | _ => none
    | _ => none
  | _ => some s

/-- The method `HandleUpstreamEOSE`; the record is `data`, and `len(config.Relays)` is
the length of `config.Relays`. -/
def HandleUpstreamEOSE (config : Config) (s : Session) (data : List JSON) : Option Session :=
  match data with
  | _ :: d1 :: _ =>
    match d1 with
    | JSON.str subid =>
      match s.PendingEOSE.get subid with
      | none => some s
      | some n =>
        if wrapInt (n + 1) ≥ (config.Relays.length : Int) then
          some (WriteJSON { s with PendingEOSE := s.PendingEOSE.delete subid } data)
        else
          some { s with PendingEOSE := s.PendingEOSE.set subid (wrapInt (n + 1)) }
    | _ => none
  | _ => some s

/-- The method `OpenSubscriptions`: every registered subscription is replayed to `conn`. -/
def OpenSubscriptions (s : Session) (conn : Nat) : Session :=
  { s with Wire := s.Wire ++
      s.Sub_IDs.map (fun p => (conn, JSON.str "REQ" :: JSON.str p.1 :: p.2)) }

/-- The method `CLOSE`; `data[1]` must be a string. -/
def CLOSE (s : Session) (data : List JSON) (sendClosed : Bool) : Option Session :=
  match data with
  | _ :: JSON.str subid :: _ =>
    let s1 : Session := { s with Event_IDs := s.Event_IDs.delete subid }
    let s2 : Session := { s1 with Sub_IDs := s1.Sub_IDs.delete subid }
    let s3 : Session := { s2 with PendingEOSE := s2.PendingEOSE.delete subid }
    let s4 : Session :=
      if sendClosed then WriteJSON s3 [JSON.str "CLOSED", JSON.str subid, JSON.str ""] else s3
    some (Broadcast s4 data)
  | _ => none

/-- The method `REQ`; `data[1]` must be a string, and `data[2:]` are the filters. -/
def REQ (config : Config) (s : Session) (data : List JSON) : Option Session :=
  let s0 : Session := if s.ready then s else { StartConnect config s with ready := true }
  match data with
  | _ :: JSON.str subid :: filters =>
    match CLOSE s0 data false with
    | none => none
    | some s1 =>
      let s2 : Session := { s1 with Event_IDs := s1.Event_IDs.set subid ∅ }
      let s3 : Session := { s2 with PendingEOSE := s2.PendingEOSE.set subid 0 }
      let s4 : Session := { s3 with Sub_IDs := s3.Sub_IDs.set subid filters }
      some (Broadcast s4 data)
  | _ => none

/-- The method `EVENT`; `data[1]` must be an object. -/
def EVENT (config : Config) (s : Session) (data : List JSON) : Option Session :=
  let s0 : Session := if s.ready then s else { StartConnect config s with ready := true }
  match data with
  | _ :: JSON.obj event :: _ =>
    match GoMap.get event "id" with
    | none => some (WriteJSON s0 [JSON.str "NOTICE", JSON.str "Неверный объект."])
    | some id =>
      some (Broadcast (WriteJSON s0 [JSON.str "OK", id, JSON.bool true, JSON.str ""]) data)
  | _ => none

/-- What `websocket.Dial` returned. `err` is `err != nil`, with the status code
of `resp` when a handshake response was received; `ok` is `err == nil`, with
`resp.StatusCode`. The library returns `err != nil` for a transport failure
(no response) and for every handshake response whose status is not 101, and
hands that response back beside the error. -/
inductive DialResult where
  | err (resp : Option Int) : DialResult
  | ok (StatusCode : Int) : DialResult

/-- What the `NewConn` worker does after a dial. -/
inductive Next where
  | stop : Next
  | retry : Next
  | fatal : Next
  | read : Next
deriving DecidableEq

/-- The method `NewConn`, from the return of `websocket.Dial` to the entry of the read loop
(lines 68 to 100). `stop` is the `return` of a destroyed session, `retry` the
`time.Sleep(5 * time.Second); continue loop`, `fatal` the `return` after the
unexpected status code, `read` the entry of the read loop on `conn`. -/
def NewConn_dial (s : Session) (conn : Nat) (r : DialResult) : Session × Next :=
  match r with
  | DialResult.err _ => (s, Next.retry)
  | DialResult.ok StatusCode =>
    if s.destroyed then (s, Next.stop)
    else if StatusCode ≥ 500 then (s, Next.retry)
    else if StatusCode > 101 then (s, Next.fatal)
    else (OpenSubscriptions { s with Relays := s.Relays.insert conn } conn, Next.read)

/-- The method `NewConn`, one turn of the read loop after a successful `wsjson.Read`
(lines 108 to 117): the routing of the decoded record. -/
def NewConn_route (config : Config) (s : Session) (data : Option (List JSON)) : Option Session :=
  match data with
  | none => some s
  | some [] => none
  | some (JSON.str tag :: rest) =>
    if tag = "EVENT" then HandleUpstreamEVENT s (JSON.str tag :: rest)
    else if tag = "EOSE" then HandleUpstreamEOSE config s (JSON.str tag :: rest)
    else some s
  | some (_ :: _) => none

/-- The method `NewConn`, after the read loop has ended (lines 120 to 138). -/
def NewConn_readEnd (s : Session) (conn : Nat) : Session :=
  if s.destroyed then s
  else { s with Relays := s.Relays.filter (fun relay => decide (relay ≠ conn)) }

/-- One atomic step of a session: a record read from a backend connection and
routed, the outcome of a dial, the end of a read loop, or a client operation. -/
inductive Op where
  | upstream (conn : Nat) (data : Option (List JSON)) : Op
  | dial (conn : Nat) (r : DialResult) : Op
  | readEnd (conn : Nat) : Op
  | req (data : List JSON) : Op
  | close (data : List JSON) (sendClosed : Bool) : Op
  | event (data : List JSON) : Op

/-- The session after one step; `none` when the step panics. -/
def step (config : Config) (s : Session) : Op → Option Session
  | Op.upstream _ data => NewConn_route config s data
  | Op.dial conn r => some (NewConn_dial s conn r).1
  | Op.readEnd conn => some (NewConn_readEnd s conn)
  | Op.req data => REQ config s data
  | Op.close data sendClosed => CLOSE s data sendClosed
  | Op.event data => EVENT config s data

/-- The session after a sequence of steps; `none` when one of them panics. -/
def run (config : Config) : Session → List Op → Option Session
  | s, [] => some s
  | s, op :: ops =>
    match step config s op with
    | none => none
    | some s1 => run config s1 ops

/-- The step is a client `REQ` naming the subscription `S`. -/
def Op.isREQFor (S : String) : Op → Bool
  | Op.req (_ :: JSON.str subid :: _) => decide (subid = S)
  | _ => false

/-- The step is a client `CLOSE` naming the subscription `S`. -/
def Op.isCLOSEFor (S : String) : Op → Bool
  | Op.close (_ :: JSON.str subid :: _) _ => decide (subid = S)
  | _ => false

/-- The message is an `EOSE` message of the subscription `S`. -/
def isEOSEMsg (S : String) : List JSON → Bool
  | JSON.str tag :: rest =>
    decide (tag = "EOSE") &&
      (match rest with
       | JSON.str subid :: _ => decide (subid = S)
       | _ => false)
  | _ => false

/-- The message is an `EVENT` record of the subscription `S` whose event object
has the id `E`. -/
def isEVENTMsg (S E : String) : List JSON → Bool
  | JSON.str tag :: rest =>
    decide (tag = "EVENT") &&
      (match rest with
       | JSON.str subid :: JSON.obj event :: _ =>
         decide (subid = S) &&
           (match GoMap.get event "id" with
            | some (JSON.str e) => decide (e = E)
            | _ => false)
       | _ => false)
  | _ => false

/-- The step is a backend record `["EOSE", S, ...]`. -/
def Op.isEOSEFor (S : String) : Op → Bool
  | Op.upstream _ (some data) => isEOSEMsg S data
  | _ => false

/-- The step is a backend `EVENT` record of the subscription `S` whose event
object has the id `E`. -/
def Op.isEVENTFor (S E : String) : Op → Bool
  | Op.upstream _ (some data) => isEVENTMsg S E data
  | _ => false

/-- The number of distinct backend connections, among the steps, that sent an
`EOSE` record for `S`. -/
def eoseBackends (S : String) (ops : List Op) : Nat :=
  (ops.filterMap (fun op =>
    match op with
    | Op.upstream conn data => if Op.isEOSEFor S (Op.upstream conn data) then some conn else none
    | _ => none)).toFinset.card

/-- A registered subscription has a dedup set; an unregistered one has neither a
dedup set nor a pending counter. -/
def Coherent (s : Session) : Prop :=
  ∀ k : String, s.Sub_IDs.get k = none →
    s.Event_IDs.get k = none ∧ s.PendingEOSE.get k = none

/-! ## Quantities and sample sessions used in the statements -/

/-- A session with one registered connection, used to instantiate C5. -/
def sessionOneRelay : Session :=
  { Sub_IDs := [], Event_IDs := [], PendingEOSE := [], Relays := [7],
    UpstreamMessage := [], Wire := [], ready := true, destroyed := false }

/-- The session with empty registries, no connection and nothing sent. -/
def emptySession : Session :=
  { Sub_IDs := [], Event_IDs := [], PendingEOSE := [], Relays := [],
    UpstreamMessage := [], Wire := [], ready := false, destroyed := false }

/-- A session with the subscription "s1" registered and one registered connection. -/
def sessionSubscribed : Session :=
  { Sub_IDs := [("s1", [JSON.obj []])], Event_IDs := [("s1", ∅)],
    PendingEOSE := [("s1", 0)], Relays := [7],
    UpstreamMessage := [], Wire := [], ready := true, destroyed := false }

/-- What one step does to the subscription `S`: to its dedup set, its pending
counter, its registration, and to the outbound queue. -/
inductive Effect (config : Config) (S : String) (s s1 : Session) : Op → Prop where
  | neutral (op : Op) (new : List (List JSON))
      (hE : s1.Event_IDs.get S = s.Event_IDs.get S)
      (hP : s1.PendingEOSE.get S = s.PendingEOSE.get S)
      (hR : s1.Sub_IDs.get S = s.Sub_IDs.get S)
      (hq : s1.UpstreamMessage = s.UpstreamMessage ++ new)
      (hnew : ∀ m ∈ new, isEOSEMsg S m = false ∧ ∀ E, isEVENTMsg S E m = false)
      (hop : Op.isEOSEFor S op = false ∨ s.PendingEOSE.get S = none) :
      Effect config S s s1 op
  | closed (op : Op) (new : List (List JSON))
      (hop : Op.isCLOSEFor S op = true)
      (hE : s1.Event_IDs.get S = none)
      (hP : s1.PendingEOSE.get S = none)
      (hq : s1.UpstreamMessage = s.UpstreamMessage ++ new)
      (hnew : ∀ m ∈ new, isEOSEMsg S m = false ∧ ∀ E, isEVENTMsg S E m = false) :
      Effect config S s s1 op
  | opened (op : Op)
      (hop : Op.isREQFor S op = true)
      (hR : s1.Sub_IDs.get S ≠ none) :
      Effect config S s s1 op
  | fire (op : Op) (data : List JSON) (n : Int)
      (hop : Op.isEOSEFor S op = true)
      (hP : s.PendingEOSE.get S = some n)
      (hn : wrapInt (n + 1) ≥ (config.Relays.length : Int))
      (hE : s1.Event_IDs.get S = s.Event_IDs.get S)
      (hR : s1.Sub_IDs.get S = s.Sub_IDs.get S)
      (hP1 : s1.PendingEOSE.get S = none)
      (hq : s1.UpstreamMessage = s.UpstreamMessage ++ [data])
      (hm : isEOSEMsg S data = true)
      (hm2 : ∀ E, isEVENTMsg S E data = false) :
      Effect config S s s1 op
  | count (op : Op) (n : Int)
      (hop : Op.isEOSEFor S op = true)
      (hP : s.PendingEOSE.get S = some n)
      (hn : ¬ wrapInt (n + 1) ≥ (config.Relays.length : Int))
      (hE : s1.Event_IDs.get S = s.Event_IDs.get S)
      (hR : s1.Sub_IDs.get S = s.Sub_IDs.get S)
      (hP1 : s1.PendingEOSE.get S = some (wrapInt (n + 1)))
      (hq : s1.UpstreamMessage = s.UpstreamMessage) :
      Effect config S s s1 op
  | event (op : Op) (data : List JSON) (e : String) (ev : Finset String)
      (hop : Op.isEOSEFor S op = false)
      (hE : s.Event_IDs.get S = some ev)
      (hE1 : s1.Event_IDs.get S = some (insert e ev))
      (hR : s1.Sub_IDs.get S = s.Sub_IDs.get S)
      (hP : s1.PendingEOSE.get S = s.PendingEOSE.get S)
      (hc : (insert e ev).card ≤ 500 ∨ s.PendingEOSE.get S = none)
      (hq : s1.UpstreamMessage = s.UpstreamMessage ++ (if e ∈ ev then [] else [data]))
      (hm : isEOSEMsg S data = false)
      (hm2 : ∀ E, isEVENTMsg S E data = decide (e = E))
      (conn : Nat) (hrec : op = Op.upstream conn (some data)) :
      Effect config S s s1 op
  | early (op : Op) (data : List JSON) (e : String) (ev : Finset String)
      (hop : Op.isEOSEFor S op = false)
      (hE : s.Event_IDs.get S = some ev)
      (hE1 : s1.Event_IDs.get S = some (insert e ev))
      (hR : s1.Sub_IDs.get S = s.Sub_IDs.get S)
      (hP : s.PendingEOSE.get S ≠ none)
      (hP1 : s1.PendingEOSE.get S = none)
      (hc : 500 < (insert e ev).card)
      (hq : s1.UpstreamMessage = s.UpstreamMessage ++
        ([JSON.str "EOSE", JSON.str S] :: (if e ∈ ev then [] else [data])))
      (hm : isEOSEMsg S data = false)
      (hm2 : ∀ E, isEVENTMsg S E data = decide (e = E))
      (conn : Nat) (hrec : op = Op.upstream conn (some data)) :
      Effect config S s s1 op

/-- One when `S` has a pending counter, zero otherwise. -/
def pendingCount (S : String) (s : Session) : Nat :=
  match s.PendingEOSE.get S with
  | some _ => 1
  | none => 0

/-- One when `S` has a dedup set that does not hold `E`, zero otherwise. -/
def deliverable (S E : String) (s : Session) : Nat :=
  match s.Event_IDs.get S with
  | some ev => if E ∈ ev then 0 else 1
  | none => 0

/-- Two configured relays. -/
def configTwo : Config := ⟨["wss://a", "wss://b"]⟩

/-- The record `["REQ", "s1", {}]`. -/
def reqS1 : List JSON := [JSON.str "REQ", JSON.str "s1", JSON.obj []]

/-- The record `["EOSE", "s1"]`. -/
def eoseS1 : List JSON := [JSON.str "EOSE", JSON.str "s1"]

/-- The session that `REQ` of `reqS1` leaves from the empty session. -/
def sessionAfterREQ : Session :=
  { Sub_IDs := [("s1", [JSON.obj []])], Event_IDs := [("s1", ∅)],
    PendingEOSE := [("s1", 0)], Relays := [],
    UpstreamMessage := [], Wire := [], ready := true, destroyed := false }

/-- The session after the quorum of EOSE records has been reached for "s1". -/
def sessionAfterQuorum : Session :=
  { Sub_IDs := [("s1", [JSON.obj []])], Event_IDs := [("s1", ∅)],
    PendingEOSE := [], Relays := [],
    UpstreamMessage := [eoseS1], Wire := [], ready := true, destroyed := false }

/-- Five hundred distinct event ids: "", "a", "aa", and so on. -/
def ids500 : Finset String :=
  (Finset.range 500).image (fun k => String.mk (List.replicate k 'a'))

/-- A session where "s1" has 500 ids in its dedup set and a pending counter. -/
def sessionAtThreshold : Session :=
  { Sub_IDs := [("s1", [JSON.obj []])], Event_IDs := [("s1", ids500)],
    PendingEOSE := [("s1", 0)], Relays := [],
    UpstreamMessage := [], Wire := [], ready := true, destroyed := false }

/-- The record `["EVENT", "s1", {"id": "e1"}]`. -/
def eventS1E1 : List JSON := [JSON.str "EVENT", JSON.str "s1", JSON.obj [("id", JSON.str "e1")]]

/-- The session after the event "e1" has been delivered for "s1". -/
def sessionDelivered : Session :=
  { Sub_IDs := [("s1", [JSON.obj []])], Event_IDs := [("s1", insert "e1" ∅)],
    PendingEOSE := [("s1", 0)], Relays := [],
    UpstreamMessage := [eventS1E1], Wire := [], ready := true, destroyed := false }

/-- The session after the event "e1" has been marked seen for "s1" by `HasEvent`. -/
def sessionSeen : Session :=
  { Sub_IDs := [("s1", [JSON.obj []])], Event_IDs := [("s1", insert "e1" ∅)],
    PendingEOSE := [("s1", 0)], Relays := [],
    UpstreamMessage := [], Wire := [], ready := true, destroyed := false }

/-- The record `["EVENT", "s1", {"id": "e2"}]`. -/
def eventS1E2 : List JSON := [JSON.str "EVENT", JSON.str "s1", JSON.obj [("id", JSON.str "e2")]]

/-- The session that `REQ` of `reqS1` leaves from `sessionDelivered`. -/
def sessionResubscribed : Session :=
  { Sub_IDs := [("s1", [JSON.obj []])], Event_IDs := [("s1", ∅)],
    PendingEOSE := [("s1", 0)], Relays := [],
    UpstreamMessage := [eventS1E1], Wire := [], ready := true, destroyed := false }

/-- The session `sessionResubscribed` after the event "e2" has been delivered for "s1". -/
def sessionResubscribedE2 : Session :=
  { Sub_IDs := [("s1", [JSON.obj []])], Event_IDs := [("s1", insert "e2" ∅)],
    PendingEOSE := [("s1", 0)], Relays := [],
    UpstreamMessage := [eventS1E1, eventS1E2], Wire := [], ready := true,
    destroyed := false }

/-- The session `sessionResubscribedE2` after the event "e1" has been delivered anew. -/
def sessionResubscribedE2E1 : Session :=
  { Sub_IDs := [("s1", [JSON.obj []])],
    Event_IDs := [("s1", insert "e1" (insert "e2" ∅))],
    PendingEOSE := [("s1", 0)], Relays := [],
    UpstreamMessage := [eventS1E1, eventS1E2, eventS1E1], Wire := [], ready := true,
    destroyed := false }

/-! ## Maps -/

namespace GoMap

theorem get_delete_self {V : Type} (m : GoMap V) (k : String) : (delete m k).get k = none := by
  induction m with
  | nil => rfl
  | cons p m ih =>
    obtain ⟨k1, v⟩ := p
    by_cases h : k1 = k
    · simpa [delete, List.filter_cons, h] using ih
    · simpa [delete, List.filter_cons, h, get] using ih

theorem get_delete_ne {V : Type} (m : GoMap V) (k k2 : String) (h : k2 ≠ k) :
    (delete m k).get k2 = m.get k2 := by
  induction m with
  | nil => rfl
  | cons p m ih =>
    obtain ⟨k1, v⟩ := p
    have ih2 : get (List.filter (fun p => decide (p.1 ≠ k)) m) k2 = get m k2 := ih
    by_cases h1 : k1 = k
    · have h2 : ¬ k1 = k2 := fun e => h (e ▸ h1)
      simp only [delete, List.filter_cons, h1, ne_eq, not_true_eq_false, decide_False,
        Bool.false_eq_true, if_false, get]
      rw [if_neg (h1 ▸ h2)]
      exact ih2
    · simp only [delete, List.filter_cons, ne_eq, h1, not_false_eq_true, decide_True, if_true,
        get]
      rw [ih2]

theorem get_set_self {V : Type} (m : GoMap V) (k : String) (v : V) :
    (set m k v).get k = some v := by
  simp [set, get]

theorem get_set_ne {V : Type} (m : GoMap V) (k k2 : String) (v : V) (h : k2 ≠ k) :
    (set m k v).get k2 = m.get k2 := by
  have h2 : k ≠ k2 := fun e => h e.symm
  simp [set, get, h2, get_delete_ne m k k2 h]

end GoMap

/-! ## The client operations in closed form -/

theorem CLOSE_eq (s : Session) (tag : JSON) (id : String) (rest : List JSON)
    (sendClosed : Bool) :
    CLOSE s (tag :: JSON.str id :: rest) sendClosed = some
      { Sub_IDs := s.Sub_IDs.delete id
        Event_IDs := s.Event_IDs.delete id
        PendingEOSE := s.PendingEOSE.delete id
        Relays := s.Relays
        UpstreamMessage := s.UpstreamMessage ++
          (if sendClosed then [[JSON.str "CLOSED", JSON.str id, JSON.str ""]] else [])
        Wire := s.Wire ++ s.Relays.map (fun relay => (relay, tag :: JSON.str id :: rest))
        ready := s.ready
        destroyed := s.destroyed } := by
  cases sendClosed <;> simp [CLOSE, Broadcast, WriteJSON]

theorem REQ_eq (config : Config) (s : Session) (tag : JSON) (id : String)
    (filters : List JSON) :
    REQ config s (tag :: JSON.str id :: filters) = some
      { Sub_IDs := (s.Sub_IDs.delete id).set id filters
        Event_IDs := (s.Event_IDs.delete id).set id ∅
        PendingEOSE := (s.PendingEOSE.delete id).set id 0
        Relays := s.Relays
        UpstreamMessage := s.UpstreamMessage
        Wire := (s.Wire ++ s.Relays.map (fun relay => (relay, tag :: JSON.str id :: filters)))
          ++ s.Relays.map (fun relay => (relay, tag :: JSON.str id :: filters))
        ready := true
        destroyed := s.destroyed } := by
  cases hr : s.ready <;> simp [REQ, CLOSE_eq, Broadcast, StartConnect, hr]

/-! ## Client operations -/

/-- C5: a publish record whose event object has no "id" puts exactly one NOTICE
on the outbound queue and writes nothing to any backend; one whose event object
has an "id" puts exactly one `["OK", id, true, ""]` on the outbound queue and is
written once to every registered connection. Either way the subscription, dedup
and pending-completion registries are unchanged. -/
theorem EVENT_publish (config : Config) (s : Session) (tag : JSON)
    (event : List (String × JSON)) (rest : List JSON) :
    (GoMap.get event "id" = none →
      ∃ s1, EVENT config s (tag :: JSON.obj event :: rest) = some s1 ∧
        s1.UpstreamMessage
          = s.UpstreamMessage ++ [[JSON.str "NOTICE", JSON.str "Неверный объект."]] ∧
        s1.Wire = s.Wire ∧
        s1.Sub_IDs = s.Sub_IDs ∧ s1.Event_IDs = s.Event_IDs ∧
        s1.PendingEOSE = s.PendingEOSE) ∧
    (∀ id : JSON, GoMap.get event "id" = some id →
      ∃ s1, EVENT config s (tag :: JSON.obj event :: rest) = some s1 ∧
        s1.UpstreamMessage
          = s.UpstreamMessage ++ [[JSON.str "OK", id, JSON.bool true, JSON.str ""]] ∧
        s1.Wire
          = s.Wire ++ s.Relays.map (fun relay => (relay, tag :: JSON.obj event :: rest)) ∧
        s1.Sub_IDs = s.Sub_IDs ∧ s1.Event_IDs = s.Event_IDs ∧
        s1.PendingEOSE = s.PendingEOSE) := by
  constructor
  · intro h
    cases hr : s.ready <;> simp [EVENT, h, hr, WriteJSON, StartConnect]
  · intro id h
    cases hr : s.ready <;> simp [EVENT, h, hr, WriteJSON, StartConnect, Broadcast]

/-- C5 at a session with one connection: the publish without "id" is answered by
a NOTICE only, the publish with the id "e1" by an OK and one write to the
connection. -/
theorem EVENT_publish_witness :
    (∃ s1, EVENT ⟨["wss://a"]⟩ sessionOneRelay [JSON.str "EVENT", JSON.obj []] = some s1 ∧
      s1.UpstreamMessage = [[JSON.str "NOTICE", JSON.str "Неверный объект."]] ∧
      s1.Wire = []) ∧
    (∃ s1, EVENT ⟨["wss://a"]⟩ sessionOneRelay
        [JSON.str "EVENT", JSON.obj [("id", JSON.str "e1")]] = some s1 ∧
      s1.UpstreamMessage = [[JSON.str "OK", JSON.str "e1", JSON.bool true, JSON.str ""]] ∧
      s1.Wire = [(7, [JSON.str "EVENT", JSON.obj [("id", JSON.str "e1")]])]) := by
  constructor
  · obtain ⟨s1, h1, h2, h3, _⟩ :=
      (EVENT_publish ⟨["wss://a"]⟩ sessionOneRelay (JSON.str "EVENT") [] []).1 rfl
    exact ⟨s1, h1, h2, h3⟩
  · obtain ⟨s1, h1, h2, h3, _⟩ :=
      (EVENT_publish ⟨["wss://a"]⟩ sessionOneRelay (JSON.str "EVENT")
        [("id", JSON.str "e1")] []).2 (JSON.str "e1") rfl
    exact ⟨s1, h1, h2, h3⟩

theorem Coherent_emptySession : Coherent emptySession := by
  intro k _
  exact ⟨rfl, rfl⟩

/-- C7: `CLOSE(id, sendClosed)` leaves no entry for `id` in the subscription
registry, the dedup sets and the pending counters, queues `["CLOSED", id, ""]`
exactly when `sendClosed` is true, and writes the record to every registered
connection; and in a coherent session where `id` is not registered, a backend
EVENT or EOSE record for `id` leaves the session as it is, `HasEvent` returning
true. -/
theorem CLOSE_drops (config : Config) (s : Session) (tag : JSON) (id : String)
    (rest : List JSON) (sendClosed : Bool) :
    (∃ s1, CLOSE s (tag :: JSON.str id :: rest) sendClosed = some s1 ∧
      s1.Sub_IDs.get id = none ∧ s1.Event_IDs.get id = none ∧
      s1.PendingEOSE.get id = none ∧
      s1.UpstreamMessage = s.UpstreamMessage ++
        (if sendClosed then [[JSON.str "CLOSED", JSON.str id, JSON.str ""]] else []) ∧
      s1.Wire = s.Wire ++ s.Relays.map (fun relay => (relay, tag :: JSON.str id :: rest))) ∧
    (∀ t : Session, Coherent t → t.Sub_IDs.get id = none →
      (∀ (d0 : JSON) (more : List JSON),
        HandleUpstreamEVENT t (d0 :: JSON.str id :: more) = some t ∧
        HandleUpstreamEOSE config t (d0 :: JSON.str id :: more) = some t) ∧
      (∀ e : String, HasEvent t id e = (t, true))) := by
  constructor
  · exact ⟨_, CLOSE_eq s tag id rest sendClosed, GoMap.get_delete_self _ _,
      GoMap.get_delete_self _ _, GoMap.get_delete_self _ _, rfl, rfl⟩
  · intro t ht hid
    obtain ⟨he, hp⟩ := ht id hid
    refine ⟨fun d0 more => ⟨?_, ?_⟩, fun e => ?_⟩
    · cases more with
      | nil => rfl
      | cons d2 more => simp [HandleUpstreamEVENT, hid]
    · simp [HandleUpstreamEOSE, hp]
    · simp [HasEvent, he]

/-- C7 at the empty session: `CLOSE` for "s1" with the notice queues the
CLOSED message, and a backend EVENT and EOSE for "s1" change nothing. -/
theorem CLOSE_drops_witness :
    (∃ s1, CLOSE emptySession [JSON.str "CLOSE", JSON.str "s1"] true = some s1 ∧
      s1.UpstreamMessage = [[JSON.str "CLOSED", JSON.str "s1", JSON.str ""]]) ∧
    HandleUpstreamEVENT emptySession
      [JSON.str "EVENT", JSON.str "s1", JSON.obj [("id", JSON.str "e1")]] = some emptySession ∧
    HandleUpstreamEOSE ⟨["wss://a"]⟩ emptySession [JSON.str "EOSE", JSON.str "s1"]
      = some emptySession ∧
    HasEvent emptySession "s1" "e1" = (emptySession, true) := by
  have h := CLOSE_drops ⟨["wss://a"]⟩ emptySession (JSON.str "CLOSE") "s1" [] true
  obtain ⟨⟨s1, h1, _, _, _, h5, _⟩, h2⟩ := h
  obtain ⟨h3, h4⟩ := h2 emptySession Coherent_emptySession rfl
  exact ⟨⟨s1, h1, h5⟩, (h3 (JSON.str "EVENT") [JSON.obj [("id", JSON.str "e1")]]).1,
    (h3 (JSON.str "EOSE") []).2, h4 "e1"⟩

/-! ## The connection worker -/

/-- Every dial that returns an error is retried, whatever the status of the
response handed back with it: the test of line 74 runs before the status
tests of lines 81 to 92. -/
theorem NewConn_dial_err (s : Session) (conn : Nat) (resp : Option Int) :
    NewConn_dial s conn (DialResult.err resp) = (s, Next.retry) := rfl

/-- The status tests of lines 81 to 92, reached only when the dial returned no
error: 500 or more is retried, above 101 and below 500 is the fatal return. -/
theorem NewConn_dial_ok (s : Session) (conn : Nat) (h : s.destroyed = false) :
    (∀ c : Int, 500 ≤ c → NewConn_dial s conn (DialResult.ok c) = (s, Next.retry)) ∧
    (∀ c : Int, 101 < c → c < 500 →
      NewConn_dial s conn (DialResult.ok c) = (s, Next.fatal)) ∧
    (NewConn_dial s conn (DialResult.ok 101)).2 = Next.read ∧
    conn ∈ (NewConn_dial s conn (DialResult.ok 101)).1.Relays := by
  refine ⟨?_, ?_, ?_, ?_⟩
  · intro c hc
    simp [NewConn_dial, h, hc]
  · intro c h1 h2
    have h3 : ¬ c ≥ 500 := by omega
    simp [NewConn_dial, h, h3, h1]
  · simp [NewConn_dial, h]
  · simp [NewConn_dial, h, OpenSubscriptions]

/-- C8, the code at the failing input: on a session that is not destroyed, a
handshake that completes with status 403 comes back from the dial as an error
beside the response, and the worker retries after the fixed delay; it does
not take the fatal return and the session is as it was. -/
theorem NewConn_dial_status_403 :
    emptySession.destroyed = false ∧
    NewConn_dial emptySession 3 (DialResult.err (some 403)) = (emptySession, Next.retry) ∧
    (NewConn_dial emptySession 3 (DialResult.err (some 403))).2 ≠ Next.fatal := by
  refine ⟨rfl, rfl, ?_⟩
  simp [NewConn_dial]

/-- C9, the code at the failing input: a `REQ` for the registered id "s1"
writes the REQ record twice to the connection, and no CLOSE-tagged message. -/
theorem REQ_resubscribe_wire :
    sessionSubscribed.Sub_IDs.get "s1" = some [JSON.obj []] ∧
    (REQ ⟨["wss://a"]⟩ sessionSubscribed
        [JSON.str "REQ", JSON.str "s1", JSON.obj [("kinds", JSON.arr [JSON.num 1])]]).map
      (fun s1 => s1.Wire)
    = some [(7, [JSON.str "REQ", JSON.str "s1", JSON.obj [("kinds", JSON.arr [JSON.num 1])]]),
            (7, [JSON.str "REQ", JSON.str "s1", JSON.obj [("kinds", JSON.arr [JSON.num 1])]])] := by
  constructor
  · rfl
  · rw [REQ_eq]
    rfl

/-- An explicit `CLOSE` of "s1" on the same session writes the CLOSE record. -/
theorem CLOSE_wire_example :
    (CLOSE sessionSubscribed [JSON.str "CLOSE", JSON.str "s1"] true).map (fun s1 => s1.Wire)
    = some [(7, [JSON.str "CLOSE", JSON.str "s1"])] := by
  rw [CLOSE_eq]
  rfl

/-- C10, the claim fails: the routing step panics on a record whose first
element is not a string, on an EVENT or EOSE record whose subscription id is
not a string, and on an EVENT record of a registered subscription whose event
object is not an object, has no "id", or has an "id" that is not a string. -/
theorem NewConn_route_panics :
    NewConn_route ⟨["wss://a"]⟩ sessionSubscribed (some [JSON.num 1]) = none ∧
    NewConn_route ⟨["wss://a"]⟩ sessionSubscribed
      (some [JSON.str "EVENT", JSON.num 1, JSON.obj [("id", JSON.str "e1")]]) = none ∧
    NewConn_route ⟨["wss://a"]⟩ sessionSubscribed
      (some [JSON.str "EOSE", JSON.null]) = none ∧
    NewConn_route ⟨["wss://a"]⟩ sessionSubscribed
      (some [JSON.str "EVENT", JSON.str "s1", JSON.str "e1"]) = none ∧
    NewConn_route ⟨["wss://a"]⟩ sessionSubscribed
      (some [JSON.str "EVENT", JSON.str "s1", JSON.obj []]) = none ∧
    NewConn_route ⟨["wss://a"]⟩ sessionSubscribed
      (some [JSON.str "EVENT", JSON.str "s1", JSON.obj [("id", JSON.num 5)]]) = none := by
  refine ⟨rfl, rfl, rfl, rfl, rfl, rfl⟩

/-- The routing step on the empty, non-nil record: `data[0]` is out of range. -/
theorem NewConn_route_empty_record (config : Config) (s : Session) :
    NewConn_route config s (some []) = none := rfl

/-- C10, amended: the routing step completes without failing on an absent
record, on a record with a string tag other than EVENT and EOSE (both leave
the session as it is), on an EVENT record of fewer than three elements, on an
EVENT record whose subscription id is a string that is not registered (both
leave the session as it is), on an EVENT record whose subscription id is a
string and whose event is an object with a string "id", on the record
`["EOSE"]` and on an EOSE record whose subscription id is a string. -/
theorem NewConn_route_completes (config : Config) (s : Session) :
    NewConn_route config s none = some s ∧
    (∀ (tag : String) (rest : List JSON), tag ≠ "EVENT" → tag ≠ "EOSE" →
      NewConn_route config s (some (JSON.str tag :: rest)) = some s) ∧
    (∀ rest : List JSON, rest.length < 2 →
      NewConn_route config s (some (JSON.str "EVENT" :: rest)) = some s) ∧
    (∀ (id : String) (rest : List JSON), s.Sub_IDs.get id = none →
      NewConn_route config s (some (JSON.str "EVENT" :: JSON.str id :: rest)) = some s) ∧
    (∀ (id E : String) (event : List (String × JSON)) (rest : List JSON),
      GoMap.get event "id" = some (JSON.str E) →
      (NewConn_route config s
        (some (JSON.str "EVENT" :: JSON.str id :: JSON.obj event :: rest))).isSome = true) ∧
    NewConn_route config s (some [JSON.str "EOSE"]) = some s ∧
    (∀ (id : String) (rest : List JSON),
      (NewConn_route config s (some (JSON.str "EOSE" :: JSON.str id :: rest))).isSome
        = true) := by
  refine ⟨rfl, ?_, ?_, ?_, ?_, ?_, ?_⟩
  · intro tag rest h1 h2
    simp [NewConn_route, h1, h2]
  · intro rest h
    match rest, h with
    | [], _ => simp [NewConn_route, HandleUpstreamEVENT]
    | [_], _ => simp [NewConn_route, HandleUpstreamEVENT]
  · intro id rest h
    cases rest with
    | nil => simp [NewConn_route, HandleUpstreamEVENT]
    | cons d2 rest => simp [NewConn_route, HandleUpstreamEVENT, h]
  · intro id E event rest h
    simp only [NewConn_route, if_true, HandleUpstreamEVENT, h]
    cases s.Sub_IDs.get id with
    | none => rfl
    | some _ =>
      by_cases h2 : (HasEvent s id E).2 = true <;> simp [h2]
  · simp [NewConn_route, HandleUpstreamEOSE]
  · intro id rest
    have h1 : ¬ ("EOSE" = "EVENT") := by decide
    simp only [NewConn_route, h1, if_false, if_true, HandleUpstreamEOSE]
    cases s.PendingEOSE.get id with
    | none => rfl
    | some n =>
      by_cases h2 : wrapInt (n + 1) ≥ (config.Relays.length : Int) <;> simp [h2]

/-- C10, amended, at a session with "s1" registered: an absent record, a
NOTICE record and an EVENT for the unknown "s9" leave it as it is, and a
well-formed EVENT and EOSE for "s1" are processed. -/
theorem NewConn_route_completes_witness :
    NewConn_route ⟨["wss://a"]⟩ sessionSubscribed none = some sessionSubscribed ∧
    NewConn_route ⟨["wss://a"]⟩ sessionSubscribed
      (some [JSON.str "NOTICE", JSON.str "hello"]) = some sessionSubscribed ∧
    NewConn_route ⟨["wss://a"]⟩ sessionSubscribed
      (some [JSON.str "EVENT", JSON.str "s9", JSON.null]) = some sessionSubscribed ∧
    (NewConn_route ⟨["wss://a"]⟩ sessionSubscribed
      (some [JSON.str "EVENT", JSON.str "s1", JSON.obj [("id", JSON.str "e1")]])).isSome
      = true ∧
    (NewConn_route ⟨["wss://a"]⟩ sessionSubscribed
      (some [JSON.str "EOSE", JSON.str "s1"])).isSome = true := by
  have h := NewConn_route_completes ⟨["wss://a"]⟩ sessionSubscribed
  exact ⟨h.1, h.2.1 "NOTICE" [JSON.str "hello"] (by decide) (by decide),
    h.2.2.2.1 "s9" [JSON.null] rfl,
    h.2.2.2.2.1 "s1" "e1" [("id", JSON.str "e1")] [] rfl,
    h.2.2.2.2.2.2 "s1" []⟩

/-! ## The effect of one step on one subscription -/

theorem HasEvent_unknown (s : Session) (subid e : String) (h : s.Event_IDs.get subid = none) :
    HasEvent s subid e = (s, true) := by
  simp [HasEvent, h]

theorem HasEvent_known (s : Session) (subid e : String) (ev : Finset String)
    (h : s.Event_IDs.get subid = some ev) :
    (HasEvent s subid e).2 = decide (e ∈ ev) ∧
    (HasEvent s subid e).1.Sub_IDs = s.Sub_IDs ∧
    (∀ S : String, (HasEvent s subid e).1.Event_IDs.get S
      = if S = subid then some (insert e ev) else s.Event_IDs.get S) ∧
    ((500 < (insert e ev).card ∧ s.PendingEOSE.get subid ≠ none ∧
        (∀ S : String, (HasEvent s subid e).1.PendingEOSE.get S
          = if S = subid then none else s.PendingEOSE.get S) ∧
        (HasEvent s subid e).1.UpstreamMessage
          = s.UpstreamMessage ++ [[JSON.str "EOSE", JSON.str subid]]) ∨
     (((insert e ev).card ≤ 500 ∨ s.PendingEOSE.get subid = none) ∧
        (HasEvent s subid e).1.PendingEOSE = s.PendingEOSE ∧
        (HasEvent s subid e).1.UpstreamMessage = s.UpstreamMessage)) := by
  have hget : ∀ (m : GoMap (Finset String)) (v : Finset String) (S : String),
      (m.set subid v).get S = if S = subid then some v else m.get S := by
    intro m v S
    by_cases hS : S = subid
    · subst hS
      simp [GoMap.get_set_self]
    · simp [hS, GoMap.get_set_ne _ _ _ _ hS]
  have hdel : ∀ (m : GoMap Int) (S : String),
      (m.delete subid).get S = if S = subid then none else m.get S := by
    intro m S
    by_cases hS : S = subid
    · subst hS
      simp [GoMap.get_delete_self]
    · simp [hS, GoMap.get_delete_ne _ _ _ hS]
  by_cases he : e ∈ ev
  · have hins : insert e ev = ev := Finset.insert_eq_of_mem he
    have hsame : ∀ S : String, s.Event_IDs.get S
        = if S = subid then some ev else s.Event_IDs.get S := by
      intro S
      by_cases hS : S = subid
      · subst hS
        simp [h]
      · simp [hS]
    by_cases hc : 500 < ev.card
    · cases hp : s.PendingEOSE.get subid with
      | none => simp [HasEvent, h, he, hc, hp, hins, ← hsame]
      | some n => simp [HasEvent, h, he, hc, hp, hins, ← hsame, WriteJSON, hdel]
    · have hc2 : ev.card ≤ 500 := by omega
      simp [HasEvent, h, he, hc, hins, ← hsame, hc2]
  · have hci : (insert e ev).card = ev.card + 1 := Finset.card_insert_of_not_mem he
    by_cases hc : 500 < ev.card + 1
    · cases hp : s.PendingEOSE.get subid with
      | none => simp [HasEvent, h, he, hc, hp, hget, hci]
      | some n => simp [HasEvent, h, he, hc, hp, hget, WriteJSON, hdel, hci]
    · have hc2 : ev.card ≤ 499 := by omega
      simp [HasEvent, h, he, hc, hget, hc2, hci]

theorem Effect_same (config : Config) (S : String) (s : Session) (op : Op)
    (hop : Op.isEOSEFor S op = false ∨ s.PendingEOSE.get S = none) :
    Effect config S s s op :=
  Effect.neutral op [] rfl rfl rfl (by simp) (by simp) hop

theorem isEOSEMsg_EVENT (S : String) (rest : List JSON) :
    isEOSEMsg S (JSON.str "EVENT" :: rest) = false := by
  simp [isEOSEMsg]

theorem isEVENTMsg_EOSE (S E : String) (rest : List JSON) :
    isEVENTMsg S E (JSON.str "EOSE" :: rest) = false := by
  simp [isEVENTMsg]

theorem HandleUpstreamEVENT_effect (config : Config) (S : String) (s s1 : Session)
    (conn : Nat) (rest : List JSON)
    (h : HandleUpstreamEVENT s (JSON.str "EVENT" :: rest) = some s1) :
    Effect config S s s1 (Op.upstream conn (some (JSON.str "EVENT" :: rest))) := by
  have hop : Op.isEOSEFor S (Op.upstream conn (some (JSON.str "EVENT" :: rest))) = false :=
    isEOSEMsg_EVENT S rest
  have hsame : some s = some s1 →
      Effect config S s s1 (Op.upstream conn (some (JSON.str "EVENT" :: rest))) := by
    intro hs
    cases hs
    exact Effect_same config S s _ (Or.inl hop)
  match rest, h, hop, hsame with
  | [], h, _, hsame => exact hsame h
  | [_], h, _, hsame => exact hsame h
  | d1 :: d2 :: more, h, hop, hsame =>
    cases d1 with
    | null => simp [HandleUpstreamEVENT] at h
    | bool b => simp [HandleUpstreamEVENT] at h
    | num n => simp [HandleUpstreamEVENT] at h
    | arr xs => simp [HandleUpstreamEVENT] at h
    | obj kvs => simp [HandleUpstreamEVENT] at h
    | str subid =>
      cases hsub : s.Sub_IDs.get subid with
      | none =>
        simp only [HandleUpstreamEVENT, hsub] at h
        exact hsame h
      | some fl =>
        cases d2 with
        | null => simp [HandleUpstreamEVENT, hsub] at h
        | bool b => simp [HandleUpstreamEVENT, hsub] at h
        | num n => simp [HandleUpstreamEVENT, hsub] at h
        | arr xs => simp [HandleUpstreamEVENT, hsub] at h
        | str x => simp [HandleUpstreamEVENT, hsub] at h
        | obj event =>
          cases hid : GoMap.get event "id" with
          | none => simp [HandleUpstreamEVENT, hsub, hid] at h
          | some j =>
            cases j with
            | null => simp [HandleUpstreamEVENT, hsub, hid] at h
            | bool b => simp [HandleUpstreamEVENT, hsub, hid] at h
            | num n => simp [HandleUpstreamEVENT, hsub, hid] at h
            | arr xs => simp [HandleUpstreamEVENT, hsub, hid] at h
            | obj kvs => simp [HandleUpstreamEVENT, hsub, hid] at h
            | str e =>
              simp only [HandleUpstreamEVENT, hsub, hid] at h
              cases hev : s.Event_IDs.get subid with
              | none =>
                rw [HasEvent_unknown s subid e hev] at h
                exact hsame h
              | some ev =>
                obtain ⟨h2, hS, hEget, hdisj⟩ := HasEvent_known s subid e ev hev
                have hm : isEOSEMsg S
                    (JSON.str "EVENT" :: JSON.str subid :: JSON.obj event :: more) = false :=
                  isEOSEMsg_EVENT S _
                have hm2 : ∀ E, isEVENTMsg S E
                    (JSON.str "EVENT" :: JSON.str subid :: JSON.obj event :: more)
                    = (decide (subid = S) && decide (e = E)) := by
                  intro E
                  simp [isEVENTMsg, hid]
                have hs1 : s1.Event_IDs = (HasEvent s subid e).1.Event_IDs ∧
                    s1.PendingEOSE = (HasEvent s subid e).1.PendingEOSE ∧
                    s1.Sub_IDs = (HasEvent s subid e).1.Sub_IDs ∧
                    s1.UpstreamMessage = (HasEvent s subid e).1.UpstreamMessage ++
                      (if e ∈ ev then []
                       else [JSON.str "EVENT" :: JSON.str subid :: JSON.obj event :: more]) := by
                  by_cases he : e ∈ ev
                  · simp only [h2, he, decide_True, if_true, Option.some.injEq] at h
                    subst h
                    simp [he]
                  · simp only [h2, he, decide_False, Bool.false_eq_true, if_false,
                      Option.some.injEq] at h
                    subst h
                    simp [he, WriteJSON]
                obtain ⟨hs1E, hs1P, hs1R, hs1q⟩ := hs1
                by_cases hsS : subid = S
                · subst hsS
                  have hm3 : ∀ E, isEVENTMsg subid E
                      (JSON.str "EVENT" :: JSON.str subid :: JSON.obj event :: more)
                      = decide (e = E) := by
                    intro E
                    simp [hm2 E]
                  rcases hdisj with ⟨hc, hp, hpget, hq⟩ | ⟨hc, hp, hq⟩
                  · refine Effect.early _ _ e ev hop hev ?_ ?_ hp ?_ hc ?_ hm hm3 conn rfl
                    · rw [hs1E, hEget]; simp
                    · rw [hs1R, hS]
                    · rw [hs1P, hpget]; simp
                    · rw [hs1q, hq]; simp
                  · refine Effect.event _ _ e ev hop hev ?_ ?_ ?_ hc ?_ hm hm3 conn rfl
                    · rw [hs1E, hEget]; simp
                    · rw [hs1R, hS]
                    · rw [hs1P, hp]
                    · rw [hs1q, hq]
                · have hSs : ¬ S = subid := fun x => hsS x.symm
                  have hm3 : ∀ E, isEVENTMsg S E
                      (JSON.str "EVENT" :: JSON.str subid :: JSON.obj event :: more)
                      = false := by
                    intro E
                    simp [hm2 E, hsS]
                  have hm4 : isEOSEMsg S [JSON.str "EOSE", JSON.str subid] = false := by
                    simp [isEOSEMsg, hsS]
                  have hm5 : ∀ E, isEVENTMsg S E [JSON.str "EOSE", JSON.str subid] = false :=
                    fun E => isEVENTMsg_EOSE S E _
                  rcases hdisj with ⟨hc, hp, hpget, hq⟩ | ⟨hc, hp, hq⟩
                  · refine Effect.neutral _
                      ([JSON.str "EOSE", JSON.str subid] :: (if e ∈ ev then []
                        else [JSON.str "EVENT" :: JSON.str subid :: JSON.obj event :: more]))
                      ?_ ?_ ?_ ?_ ?_ (Or.inl hop)
                    · rw [hs1E, hEget]; simp [hSs]
                    · rw [hs1P, hpget]; simp [hSs]
                    · rw [hs1R, hS]
                    · rw [hs1q, hq]; simp
                    · intro m hmem
                      by_cases he : e ∈ ev
                      · simp only [he, if_true, List.mem_singleton] at hmem
                        subst hmem
                        exact ⟨hm4, hm5⟩
                      · simp only [he, if_false, List.mem_cons, List.mem_singleton,
                          List.mem_nil_iff, or_false] at hmem
                        rcases hmem with hmem | hmem
                        · subst hmem
                          exact ⟨hm4, hm5⟩
                        · subst hmem
                          exact ⟨hm, hm3⟩
                  · refine Effect.neutral _
                      (if e ∈ ev then []
                        else [JSON.str "EVENT" :: JSON.str subid :: JSON.obj event :: more])
                      ?_ ?_ ?_ ?_ ?_ (Or.inl hop)
                    · rw [hs1E, hEget]; simp [hSs]
                    · rw [hs1P, hp]
                    · rw [hs1R, hS]
                    · rw [hs1q, hq]
                    · intro m hmem
                      by_cases he : e ∈ ev
                      · simp [he] at hmem
                      · simp only [he, if_false, List.mem_singleton] at hmem
                        subst hmem
                        exact ⟨hm, hm3⟩

theorem HandleUpstreamEOSE_effect (config : Config) (S : String) (s s1 : Session)
    (conn : Nat) (rest : List JSON)
    (h : HandleUpstreamEOSE config s (JSON.str "EOSE" :: rest) = some s1) :
    Effect config S s s1 (Op.upstream conn (some (JSON.str "EOSE" :: rest))) := by
  match rest, h with
  | [], h =>
    simp only [HandleUpstreamEOSE, Option.some.injEq] at h
    subst h
    exact Effect_same config S s _ (Or.inl (by simp [Op.isEOSEFor, isEOSEMsg]))
  | d1 :: more, h =>
    cases d1 with
    | null => simp [HandleUpstreamEOSE] at h
    | bool b => simp [HandleUpstreamEOSE] at h
    | num n => simp [HandleUpstreamEOSE] at h
    | arr xs => simp [HandleUpstreamEOSE] at h
    | obj kvs => simp [HandleUpstreamEOSE] at h
    | str subid =>
      have hmE : ∀ E, isEVENTMsg S E (JSON.str "EOSE" :: JSON.str subid :: more) = false :=
        fun E => isEVENTMsg_EOSE S E _
      have hmO : isEOSEMsg S (JSON.str "EOSE" :: JSON.str subid :: more)
          = decide (subid = S) := by
        simp [isEOSEMsg]
      cases hp : s.PendingEOSE.get subid with
      | none =>
        simp only [HandleUpstreamEOSE, hp, Option.some.injEq] at h
        subst h
        by_cases hsS : subid = S
        · subst hsS
          exact Effect_same config subid s _ (Or.inr hp)
        · exact Effect_same config S s _ (Or.inl (by simp [Op.isEOSEFor, hmO, hsS]))
      | some n =>
        by_cases hn : wrapInt (n + 1) ≥ (config.Relays.length : Int)
        · simp only [HandleUpstreamEOSE, hp, hn, if_true, Option.some.injEq] at h
          subst h
          by_cases hsS : subid = S
          · subst hsS
            exact Effect.fire _ (JSON.str "EOSE" :: JSON.str subid :: more) n
              (by simp [Op.isEOSEFor, hmO]) hp hn rfl rfl
              (by simp [WriteJSON, GoMap.get_delete_self]) (by simp [WriteJSON])
              (by simp [hmO]) hmE
          · have hSs : S ≠ subid := fun x => hsS x.symm
            refine Effect.neutral _ [JSON.str "EOSE" :: JSON.str subid :: more] rfl ?_ rfl
              (by simp [WriteJSON]) ?_ (Or.inl (by simp [Op.isEOSEFor, hmO, hsS]))
            · simp [WriteJSON, GoMap.get_delete_ne _ _ _ hSs]
            · intro m hmem
              simp only [List.mem_singleton] at hmem
              subst hmem
              exact ⟨by simp [hmO, hsS], hmE⟩
        · simp only [HandleUpstreamEOSE, hp, hn, if_false, Option.some.injEq] at h
          subst h
          by_cases hsS : subid = S
          · subst hsS
            exact Effect.count _ n (by simp [Op.isEOSEFor, hmO]) hp hn rfl rfl
              (by simp [GoMap.get_set_self]) rfl
          · have hSs : S ≠ subid := fun x => hsS x.symm
            refine Effect.neutral _ [] rfl ?_ rfl (by simp) (by simp)
              (Or.inl (by simp [Op.isEOSEFor, hmO, hsS]))
            simp [GoMap.get_set_ne _ _ _ _ hSs]

theorem EVENT_effect (config : Config) (S : String) (s s1 : Session) (data : List JSON)
    (h : EVENT config s data = some s1) :
    Effect config S s s1 (Op.event data) := by
  have hop : Op.isEOSEFor S (Op.event data) = false := rfl
  match data, h, hop with
  | [], h, _ => simp [EVENT] at h
  | [_], h, _ => simp [EVENT] at h
  | d0 :: d1 :: more, h, hop =>
    cases d1 with
    | null => simp [EVENT] at h
    | bool b => simp [EVENT] at h
    | num n => simp [EVENT] at h
    | arr xs => simp [EVENT] at h
    | str x => simp [EVENT] at h
    | obj event =>
      cases hid : GoMap.get event "id" with
      | none =>
        simp only [EVENT, hid, Option.some.injEq] at h
        subst h
        refine Effect.neutral _ [[JSON.str "NOTICE", JSON.str "Неверный объект."]] ?_ ?_ ?_ ?_
          ?_ (Or.inl hop)
        · cases hr : s.ready <;> simp [WriteJSON, StartConnect, hr]
        · cases hr : s.ready <;> simp [WriteJSON, StartConnect, hr]
        · cases hr : s.ready <;> simp [WriteJSON, StartConnect, hr]
        · cases hr : s.ready <;> simp [WriteJSON, StartConnect, hr]
        · intro m hmem
          simp only [List.mem_singleton] at hmem
          subst hmem
          exact ⟨by simp [isEOSEMsg], fun E => by simp [isEVENTMsg]⟩
      | some id =>
        simp only [EVENT, hid, Option.some.injEq] at h
        subst h
        refine Effect.neutral _ [[JSON.str "OK", id, JSON.bool true, JSON.str ""]] ?_ ?_ ?_ ?_
          ?_ (Or.inl hop)
        · cases hr : s.ready <;> simp [WriteJSON, StartConnect, hr, Broadcast]
        · cases hr : s.ready <;> simp [WriteJSON, StartConnect, hr, Broadcast]
        · cases hr : s.ready <;> simp [WriteJSON, StartConnect, hr, Broadcast]
        · cases hr : s.ready <;> simp [WriteJSON, StartConnect, hr, Broadcast]
        · intro m hmem
          simp only [List.mem_singleton] at hmem
          subst hmem
          exact ⟨by simp [isEOSEMsg], fun E => by simp [isEVENTMsg]⟩

theorem CLOSE_effect (config : Config) (S : String) (s s1 : Session) (data : List JSON)
    (sendClosed : Bool) (h : CLOSE s data sendClosed = some s1) :
    Effect config S s s1 (Op.close data sendClosed) := by
  have hop : Op.isEOSEFor S (Op.close data sendClosed) = false := rfl
  match data, h, hop with
  | [], h, _ => simp [CLOSE] at h
  | [_], h, _ => simp [CLOSE] at h
  | d0 :: d1 :: more, h, hop =>
    cases d1 with
    | null => simp [CLOSE] at h
    | bool b => simp [CLOSE] at h
    | num n => simp [CLOSE] at h
    | arr xs => simp [CLOSE] at h
    | obj kvs => simp [CLOSE] at h
    | str id =>
      rw [CLOSE_eq] at h
      simp only [Option.some.injEq] at h
      subst h
      have hnew : ∀ m ∈ (if sendClosed = true
            then [[JSON.str "CLOSED", JSON.str id, JSON.str ""]] else []),
          isEOSEMsg S m = false ∧ ∀ E, isEVENTMsg S E m = false := by
        intro m hmem
        cases sendClosed with
        | false => simp at hmem
        | true =>
          simp only [if_true, List.mem_singleton] at hmem
          subst hmem
          exact ⟨by simp [isEOSEMsg], fun E => by simp [isEVENTMsg]⟩
      by_cases hS : id = S
      · subst hS
        exact Effect.closed _ _ (by simp [Op.isCLOSEFor]) (GoMap.get_delete_self _ _)
          (GoMap.get_delete_self _ _) rfl hnew
      · have hSs : S ≠ id := fun x => hS x.symm
        exact Effect.neutral _ _ (GoMap.get_delete_ne _ _ _ hSs) (GoMap.get_delete_ne _ _ _ hSs)
          (GoMap.get_delete_ne _ _ _ hSs) rfl hnew (Or.inl hop)

theorem REQ_effect (config : Config) (S : String) (s s1 : Session) (data : List JSON)
    (h : REQ config s data = some s1) :
    Effect config S s s1 (Op.req data) := by
  have hop : Op.isEOSEFor S (Op.req data) = false := rfl
  match data, h, hop with
  | [], h, _ => simp [REQ] at h
  | [_], h, _ => simp [REQ] at h
  | d0 :: d1 :: more, h, hop =>
    cases d1 with
    | null => simp [REQ] at h
    | bool b => simp [REQ] at h
    | num n => simp [REQ] at h
    | arr xs => simp [REQ] at h
    | obj kvs => simp [REQ] at h
    | str id =>
      rw [REQ_eq] at h
      simp only [Option.some.injEq] at h
      subst h
      by_cases hS : id = S
      · subst hS
        exact Effect.opened _ (by simp [Op.isREQFor]) (by simp [GoMap.get_set_self])
      · have hSs : S ≠ id := fun x => hS x.symm
        refine Effect.neutral _ [] ?_ ?_ ?_ (by simp) (by simp) (Or.inl hop)
        · simp [GoMap.get_set_ne _ _ _ _ hSs, GoMap.get_delete_ne _ _ _ hSs]
        · simp [GoMap.get_set_ne _ _ _ _ hSs, GoMap.get_delete_ne _ _ _ hSs]
        · simp [GoMap.get_set_ne _ _ _ _ hSs, GoMap.get_delete_ne _ _ _ hSs]

theorem NewConn_dial_registries (s : Session) (conn : Nat) (r : DialResult) :
    (NewConn_dial s conn r).1.Sub_IDs = s.Sub_IDs ∧
    (NewConn_dial s conn r).1.Event_IDs = s.Event_IDs ∧
    (NewConn_dial s conn r).1.PendingEOSE = s.PendingEOSE ∧
    (NewConn_dial s conn r).1.UpstreamMessage = s.UpstreamMessage := by
  cases r with
  | err resp => simp [NewConn_dial]
  | ok c =>
    simp only [NewConn_dial]
    split_ifs <;> simp [OpenSubscriptions]

/-- Every step that does not panic has one of the effects of `Effect` on `S`. -/
theorem step_effect (config : Config) (S : String) (s s1 : Session) (op : Op)
    (h : step config s op = some s1) : Effect config S s s1 op := by
  cases op with
  | upstream conn data =>
    simp only [step] at h
    match data, h with
    | none, h =>
      simp only [NewConn_route, Option.some.injEq] at h
      subst h
      exact Effect_same config S s _ (Or.inl rfl)
    | some [], h => simp [NewConn_route] at h
    | some (d0 :: rest), h =>
      cases d0 with
      | null => simp [NewConn_route] at h
      | bool b => simp [NewConn_route] at h
      | num n => simp [NewConn_route] at h
      | arr xs => simp [NewConn_route] at h
      | obj kvs => simp [NewConn_route] at h
      | str tag =>
        by_cases h1 : tag = "EVENT"
        · subst h1
          simp only [NewConn_route, if_true] at h
          exact HandleUpstreamEVENT_effect config S s s1 conn rest h
        · by_cases h2 : tag = "EOSE"
          · subst h2
            simp only [NewConn_route, h1, if_false, if_true] at h
            exact HandleUpstreamEOSE_effect config S s s1 conn rest h
          · simp only [NewConn_route, h1, h2, if_false, Option.some.injEq] at h
            subst h
            exact Effect_same config S s _ (Or.inl (by simp [Op.isEOSEFor, isEOSEMsg, h2]))
  | dial conn r =>
    simp only [step, Option.some.injEq] at h
    subst h
    obtain ⟨h1, h2, h3, h4⟩ := NewConn_dial_registries s conn r
    exact Effect.neutral _ [] (by rw [h2]) (by rw [h3]) (by rw [h1]) (by simp [h4]) (by simp)
      (Or.inl rfl)
  | readEnd conn =>
    simp only [step, Option.some.injEq] at h
    subst h
    have h0 : (NewConn_readEnd s conn).Sub_IDs = s.Sub_IDs ∧
        (NewConn_readEnd s conn).Event_IDs = s.Event_IDs ∧
        (NewConn_readEnd s conn).PendingEOSE = s.PendingEOSE ∧
        (NewConn_readEnd s conn).UpstreamMessage = s.UpstreamMessage := by
      simp only [NewConn_readEnd]
      split_ifs <;> simp
    obtain ⟨h1, h2, h3, h4⟩ := h0
    exact Effect.neutral _ [] (by rw [h2]) (by rw [h3]) (by rw [h1]) (by simp [h4]) (by simp)
      (Or.inl rfl)
  | req data => exact REQ_effect config S s s1 data h
  | close data sendClosed => exact CLOSE_effect config S s s1 data sendClosed h
  | event data => exact EVENT_effect config S s s1 data h

theorem countP_zero_of_forall {p : List JSON → Bool} (new : List (List JSON))
    (h : ∀ m ∈ new, p m = false) : new.countP p = 0 := by
  rw [List.countP_eq_zero]
  intro m hm
  simp [h m hm]

/-! ## The merged EOSE is sent at most once -/

theorem step_eose_budget (config : Config) (S : String) (s s1 : Session) (op : Op)
    (h : step config s op = some s1) (hreq : Op.isREQFor S op = false) :
    ∃ new, s1.UpstreamMessage = s.UpstreamMessage ++ new ∧
      new.countP (isEOSEMsg S) + pendingCount S s1 ≤ pendingCount S s := by
  cases step_effect config S s s1 op h with
  | neutral new hE hP hR hq hnew hop =>
    refine ⟨new, hq, ?_⟩
    rw [countP_zero_of_forall new (fun m hm => (hnew m hm).1)]
    simp [pendingCount, hP]
  | closed new hop hE hP hq hnew =>
    refine ⟨new, hq, ?_⟩
    rw [countP_zero_of_forall new (fun m hm => (hnew m hm).1)]
    simp [pendingCount, hP]
  | opened hop hR => rw [hreq] at hop; cases hop
  | fire data n hop hP hn hE hR hP1 hq hm hm2 =>
    refine ⟨[data], hq, ?_⟩
    simp [pendingCount, hP, hP1, hm]
  | count n hop hP hn hE hR hP1 hq =>
    refine ⟨[], by simpa using hq, ?_⟩
    simp [pendingCount, hP, hP1]
  | event data e ev hop hE hE1 hR hP hc hq hm hm2 =>
    refine ⟨_, hq, ?_⟩
    have h0 : (if e ∈ ev then [] else [data]).countP (isEOSEMsg S) = 0 := by
      split_ifs <;> simp [hm]
    rw [h0]
    simp [pendingCount, hP]
  | early data e ev hop hE hE1 hR hP hP1 hc hq hm hm2 =>
    refine ⟨_, hq, ?_⟩
    have h0 : (if e ∈ ev then [] else [data]).countP (isEOSEMsg S) = 0 := by
      split_ifs <;> simp [hm]
    have h1 : isEOSEMsg S [JSON.str "EOSE", JSON.str S] = true := by simp [isEOSEMsg]
    rw [List.countP_cons, h0, h1]
    cases hp : s.PendingEOSE.get S with
    | none => exact absurd hp hP
    | some n => simp [pendingCount, hP1, hp]

theorem run_eose_budget (config : Config) (S : String) :
    ∀ (ops : List Op) (s s1 : Session), (∀ op ∈ ops, Op.isREQFor S op = false) →
      run config s ops = some s1 →
      ∃ new, s1.UpstreamMessage = s.UpstreamMessage ++ new ∧
        new.countP (isEOSEMsg S) + pendingCount S s1 ≤ pendingCount S s := by
  intro ops
  induction ops with
  | nil =>
    intro s s1 _ hrun
    simp only [run, Option.some.injEq] at hrun
    subst hrun
    exact ⟨[], by simp, by simp⟩
  | cons op ops ih =>
    intro s s1 hreq hrun
    cases hs : step config s op with
    | none => simp [run, hs] at hrun
    | some s2 =>
      simp only [run, hs] at hrun
      obtain ⟨new1, hq1, hb1⟩ :=
        step_eose_budget config S s s2 op hs (hreq op (List.mem_cons_self _ _))
      obtain ⟨new2, hq2, hb2⟩ :=
        ih s2 s1 (fun o ho => hreq o (List.mem_cons_of_mem _ ho)) hrun
      refine ⟨new1 ++ new2, by rw [hq2, hq1, List.append_assoc], ?_⟩
      rw [List.countP_append]
      omega

theorem pendingCount_le_one (S : String) (s : Session) : pendingCount S s ≤ 1 := by
  unfold pendingCount
  split <;> simp

/-- C2: along any sequence of steps that holds no `REQ` for `S` (backend EVENT
and EOSE records in any interleaving, and any other step), starting from any
session and so from the one a `REQ` for `S` leaves, at most one EOSE message
for `S` is put on the outbound queue, the quorum path and the early path
counted together. -/
theorem EOSE_at_most_once (config : Config) (S : String) (s s1 : Session) (ops : List Op)
    (hreq : ∀ op ∈ ops, Op.isREQFor S op = false) (hrun : run config s ops = some s1) :
    ∃ new, s1.UpstreamMessage = s.UpstreamMessage ++ new ∧
      new.countP (isEOSEMsg S) ≤ 1 := by
  obtain ⟨new, hq, hb⟩ := run_eose_budget config S ops s s1 hreq hrun
  have := pendingCount_le_one S s
  exact ⟨new, hq, by omega⟩

/-! ## An event id is delivered at most once -/

theorem step_event_budget (config : Config) (S E : String) (s s1 : Session) (op : Op)
    (h : step config s op = some s1) (hreq : Op.isREQFor S op = false) :
    ∃ new, s1.UpstreamMessage = s.UpstreamMessage ++ new ∧
      new.countP (isEVENTMsg S E) + deliverable S E s1 ≤ deliverable S E s := by
  have hins : ∀ (e : String) (ev : Finset String) (data : List JSON),
      isEVENTMsg S E data = decide (e = E) →
      (if e ∈ ev then [] else [data]).countP (isEVENTMsg S E)
        + (if E ∈ insert e ev then 0 else 1) ≤ (if E ∈ ev then 0 else 1) := by
    intro e ev data hm
    by_cases heE : e = E
    · subst heE
      by_cases he : e ∈ ev <;> simp [he, hm]
    · have hEe : ¬ E = e := fun x => heE x.symm
      by_cases he : e ∈ ev <;> by_cases hE : E ∈ ev <;> simp [he, hE, hm, heE, hEe]
  cases step_effect config S s s1 op h with
  | neutral new hE hP hR hq hnew hop =>
    refine ⟨new, hq, ?_⟩
    rw [countP_zero_of_forall new (fun m hm => (hnew m hm).2 E)]
    simp [deliverable, hE]
  | closed new hop hE hP hq hnew =>
    refine ⟨new, hq, ?_⟩
    rw [countP_zero_of_forall new (fun m hm => (hnew m hm).2 E)]
    simp [deliverable, hE]
  | opened hop hR => rw [hreq] at hop; cases hop
  | fire data n hop hP hn hE hR hP1 hq hm hm2 =>
    refine ⟨[data], hq, ?_⟩
    simp [deliverable, hE, hm2 E]
  | count n hop hP hn hE hR hP1 hq =>
    refine ⟨[], by simpa using hq, ?_⟩
    simp [deliverable, hE]
  | event data e ev hop hE hE1 hR hP hc hq hm hm2 =>
    refine ⟨_, hq, ?_⟩
    simp only [deliverable, hE, hE1]
    exact hins e ev data (hm2 E)
  | early data e ev hop hE hE1 hR hP hP1 hc hq hm hm2 =>
    refine ⟨_, hq, ?_⟩
    have h1 : isEVENTMsg S E [JSON.str "EOSE", JSON.str S] = false := isEVENTMsg_EOSE S E _
    simp only [deliverable, hE, hE1, List.countP_cons, h1, Bool.false_eq_true, if_false,
      Nat.add_zero]
    exact hins e ev data (hm2 E)

theorem run_event_budget (config : Config) (S E : String) :
    ∀ (ops : List Op) (s s1 : Session), (∀ op ∈ ops, Op.isREQFor S op = false) →
      run config s ops = some s1 →
      ∃ new, s1.UpstreamMessage = s.UpstreamMessage ++ new ∧
        new.countP (isEVENTMsg S E) + deliverable S E s1 ≤ deliverable S E s := by
  intro ops
  induction ops with
  | nil =>
    intro s s1 _ hrun
    simp only [run, Option.some.injEq] at hrun
    subst hrun
    exact ⟨[], by simp, by simp⟩
  | cons op ops ih =>
    intro s s1 hreq hrun
    cases hs : step config s op with
    | none => simp [run, hs] at hrun
    | some s2 =>
      simp only [run, hs] at hrun
      obtain ⟨new1, hq1, hb1⟩ :=
        step_event_budget config S E s s2 op hs (hreq op (List.mem_cons_self _ _))
      obtain ⟨new2, hq2, hb2⟩ :=
        ih s2 s1 (fun o ho => hreq o (List.mem_cons_of_mem _ ho)) hrun
      refine ⟨new1 ++ new2, by rw [hq2, hq1, List.append_assoc], ?_⟩
      rw [List.countP_append]
      omega

theorem deliverable_le_one (S E : String) (s : Session) : deliverable S E s ≤ 1 := by
  unfold deliverable
  split
  · split_ifs <;> simp
  · simp

theorem HasEvent_false_deliverable (S E : String) (t s : Session)
    (h : HasEvent t S E = (s, false)) : deliverable S E s = 0 := by
  cases hev : t.Event_IDs.get S with
  | none =>
    rw [HasEvent_unknown t S E hev] at h
    simp at h
  | some ev =>
    obtain ⟨_, _, hE, _⟩ := HasEvent_known t S E ev hev
    have h1 : (HasEvent t S E).1 = s := by rw [h]
    have h2 := hE S
    rw [h1] at h2
    simp [deliverable, h2]

theorem HasEvent_true_of_deliverable (S E : String) (s : Session)
    (h : deliverable S E s = 0) : (HasEvent s S E).2 = true := by
  cases hev : s.Event_IDs.get S with
  | none => rw [HasEvent_unknown s S E hev]
  | some ev =>
    rw [(HasEvent_known s S E ev hev).1]
    by_cases hE : E ∈ ev
    · simp [hE]
    · simp [deliverable, hev, hE] at h

/-- C1: along any sequence of steps that holds no `REQ` for `S` (backend EVENT
records, and any other step, a `CLOSE` for `S` included), at most one EVENT
record of `S` carrying the event id `E` is put on the outbound queue; and when
the sequence starts right after a `HasEvent(S, E)` that returned false, the
`HasEvent(S, E)` that follows it returns true. -/
theorem EVENT_at_most_once (config : Config) (S E : String) (s s1 : Session)
    (ops : List Op) (hreq : ∀ op ∈ ops, Op.isREQFor S op = false)
    (hrun : run config s ops = some s1) :
    (∃ new, s1.UpstreamMessage = s.UpstreamMessage ++ new ∧
      new.countP (isEVENTMsg S E) ≤ 1) ∧
    (∀ t : Session, HasEvent t S E = (s, false) → (HasEvent s1 S E).2 = true) := by
  obtain ⟨new, hq, hb⟩ := run_event_budget config S E ops s s1 hreq hrun
  constructor
  · have := deliverable_le_one S E s
    exact ⟨new, hq, by omega⟩
  · intro t ht
    have h0 := HasEvent_false_deliverable S E t s ht
    exact HasEvent_true_of_deliverable S E s1 (by omega)

/-! ## The quorum of EOSE records -/

theorem wrapInt_small (x : Int) (h0 : 0 ≤ x) (h1 : x < 2 ^ 63) : wrapInt x = x := by
  unfold wrapInt
  norm_num at h1 ⊢
  omega

theorem step_events_grow (config : Config) (S : String) (s s1 : Session) (op : Op)
    (h : step config s op = some s1) (hreq : Op.isREQFor S op = false)
    (hclose : Op.isCLOSEFor S op = false) (ev : Finset String)
    (hev : s.Event_IDs.get S = some ev) :
    ∃ ev1, s1.Event_IDs.get S = some ev1 ∧ ev.card ≤ ev1.card := by
  cases step_effect config S s s1 op h with
  | neutral new hE hP hR hq hnew hop => exact ⟨ev, by rw [hE, hev], le_refl _⟩
  | closed new hop hE hP hq hnew => rw [hclose] at hop; cases hop
  | opened hop hR => rw [hreq] at hop; cases hop
  | fire data n hop hP hn hE hR hP1 hq hm hm2 => exact ⟨ev, by rw [hE, hev], le_refl _⟩
  | count n hop hP hn hE hR hP1 hq => exact ⟨ev, by rw [hE, hev], le_refl _⟩
  | event data e ev0 hop hE hE1 hR hP hc hq hm hm2 =>
    rw [hev] at hE
    cases hE
    exact ⟨_, hE1, Finset.card_le_card (Finset.subset_insert _ _)⟩
  | early data e ev0 hop hE hE1 hR hP hP1 hc hq hm hm2 =>
    rw [hev] at hE
    cases hE
    exact ⟨_, hE1, Finset.card_le_card (Finset.subset_insert _ _)⟩

theorem run_events_grow (config : Config) (S : String) :
    ∀ (ops : List Op) (s s1 : Session) (ev : Finset String),
      (∀ op ∈ ops, Op.isREQFor S op = false ∧ Op.isCLOSEFor S op = false) →
      run config s ops = some s1 → s.Event_IDs.get S = some ev →
      ∃ ev1, s1.Event_IDs.get S = some ev1 ∧ ev.card ≤ ev1.card := by
  intro ops
  induction ops with
  | nil =>
    intro s s1 ev _ hrun hev
    simp only [run, Option.some.injEq] at hrun
    subst hrun
    exact ⟨ev, hev, le_refl _⟩
  | cons op ops ih =>
    intro s s1 ev hops hrun hev
    cases hs : step config s op with
    | none => simp [run, hs] at hrun
    | some s2 =>
      simp only [run, hs] at hrun
      obtain ⟨ev2, hev2, hle2⟩ := step_events_grow config S s s2 op hs
        (hops op (List.mem_cons_self _ _)).1 (hops op (List.mem_cons_self _ _)).2 ev hev
      obtain ⟨ev1, hev1, hle1⟩ :=
        ih s2 s1 ev2 (fun o ho => hops o (List.mem_cons_of_mem _ ho)) hrun hev2
      exact ⟨ev1, hev1, le_trans hle2 hle1⟩

theorem run_quorum (config : Config) (S : String) (hN : config.Relays.length < 2 ^ 63) :
    ∀ (ops : List Op) (s s1 : Session) (n : Nat),
      (∀ op ∈ ops, Op.isREQFor S op = false ∧ Op.isCLOSEFor S op = false) →
      run config s ops = some s1 →
      s.PendingEOSE.get S = some (n : Int) →
      n < max config.Relays.length 1 →
      (∃ ev, s.Event_IDs.get S = some ev) →
      (∀ ev1, s1.Event_IDs.get S = some ev1 → ev1.card ≤ 500) →
      ∃ new, s1.UpstreamMessage = s.UpstreamMessage ++ new ∧
        (n + ops.countP (Op.isEOSEFor S) < max config.Relays.length 1 →
          new.countP (isEOSEMsg S) = 0 ∧
          s1.PendingEOSE.get S = some ((n + ops.countP (Op.isEOSEFor S) : Nat) : Int)) ∧
        (max config.Relays.length 1 ≤ n + ops.countP (Op.isEOSEFor S) →
          new.countP (isEOSEMsg S) = 1 ∧ s1.PendingEOSE.get S = none) := by
  intro ops
  induction ops with
  | nil =>
    intro s s1 n _ hrun hP hn _ _
    simp only [run, Option.some.injEq] at hrun
    subst hrun
    refine ⟨[], by simp, ?_, ?_⟩
    · intro _
      simpa using hP
    · intro h
      simp only [List.countP_nil, Nat.add_zero] at h
      omega
  | cons op ops ih =>
    intro s s1 n hops hrun hP hn hEv hfin
    have hop1 := hops op (List.mem_cons_self _ _)
    have hops1 : ∀ o ∈ ops, Op.isREQFor S o = false ∧ Op.isCLOSEFor S o = false :=
      fun o ho => hops o (List.mem_cons_of_mem _ ho)
    obtain ⟨ev, hev⟩ := hEv
    cases hs : step config s op with
    | none => simp [run, hs] at hrun
    | some s2 =>
      simp only [run, hs] at hrun
      have hwrap : wrapInt ((n : Int) + 1) = ((n + 1 : Nat) : Int) := by
        rw [wrapInt_small]
        · push_cast; ring
        · omega
        · have : (n : Int) + 1 < 2 ^ 63 := by
            have h2 : n + 1 < 2 ^ 63 := by omega
            exact_mod_cast h2
          exact this
      cases step_effect config S s s2 op hs with
      | neutral new hE hP2 hR hq hnew hop =>
        have hop2 : Op.isEOSEFor S op = false := by
          rcases hop with h | h
          · exact h
          · rw [hP] at h; cases h
        obtain ⟨new2, hq2, hlt, hge⟩ := ih s2 s1 n hops1 hrun (by rw [hP2, hP]) hn
          ⟨ev, by rw [hE, hev]⟩ hfin
        have hc0 := countP_zero_of_forall new (fun m hm => (hnew m hm).1)
        refine ⟨new ++ new2, by rw [hq2, hq, List.append_assoc], ?_, ?_⟩
        · intro h
          simp only [List.countP_cons, hop2, Bool.false_eq_true, if_false, Nat.add_zero] at h ⊢
          rw [List.countP_append, hc0]
          simpa using hlt h
        · intro h
          simp only [List.countP_cons, hop2, Bool.false_eq_true, if_false, Nat.add_zero] at h ⊢
          rw [List.countP_append, hc0]
          simpa using hge h
      | closed new hop hE hP2 hq hnew => rw [hop1.2] at hop; cases hop
      | opened hop hR => rw [hop1.1] at hop; cases hop
      | fire data m hop hP0 hm hE hR hP1 hq hmsg hmsg2 =>
        rw [hP] at hP0
        cases hP0
        rw [hwrap] at hm
        have hm2 : config.Relays.length ≤ n + 1 := by exact_mod_cast hm
        obtain ⟨new2, hq2, hb2⟩ :=
          run_eose_budget config S ops s2 s1 (fun o ho => (hops1 o ho).1) hrun
        have hpc : pendingCount S s2 = 0 := by simp [pendingCount, hP1]
        have hc2 : new2.countP (isEOSEMsg S) = 0 := by omega
        have hp1 : pendingCount S s1 = 0 := by omega
        have hnone : s1.PendingEOSE.get S = none := by
          cases hx : s1.PendingEOSE.get S with
          | none => rfl
          | some v => simp [pendingCount, hx] at hp1
        refine ⟨[data] ++ new2, by rw [hq2, hq, List.append_assoc], ?_, ?_⟩
        · intro h
          simp only [List.countP_cons, hop, if_true] at h
          omega
        · intro _
          rw [List.countP_append, hc2]
          simp [hmsg, hnone]
      | count m hop hP0 hm hE hR hP1 hq =>
        rw [hP] at hP0
        cases hP0
        rw [hwrap] at hm hP1
        have hm2 : n + 1 < max config.Relays.length 1 := by
          have : ¬ config.Relays.length ≤ n + 1 := fun hle => hm (by exact_mod_cast hle)
          omega
        obtain ⟨new2, hq2, hlt, hge⟩ := ih s2 s1 (n + 1) hops1 hrun hP1 hm2
          ⟨ev, by rw [hE, hev]⟩ hfin
        have harr : n + (ops.countP (Op.isEOSEFor S) + 1)
            = n + 1 + ops.countP (Op.isEOSEFor S) := by omega
        refine ⟨new2, by rw [hq2, hq], ?_, ?_⟩
        · intro h
          simp only [List.countP_cons, hop, if_true] at h ⊢
          rw [harr] at h ⊢
          exact hlt h
        · intro h
          simp only [List.countP_cons, hop, if_true] at h ⊢
          rw [harr] at h
          exact hge h
      | event data e ev0 hop hE hE1 hR hP2 hc hq hmsg hmsg2 =>
        obtain ⟨new2, hq2, hlt, hge⟩ := ih s2 s1 n hops1 hrun (by rw [hP2, hP]) hn
          ⟨_, hE1⟩ hfin
        have hc0 : (if e ∈ ev0 then [] else [data]).countP (isEOSEMsg S) = 0 := by
          split_ifs <;> simp [hmsg]
        refine ⟨(if e ∈ ev0 then [] else [data]) ++ new2,
          by rw [hq2, hq, List.append_assoc], ?_, ?_⟩
        · intro h
          simp only [List.countP_cons, hop, Bool.false_eq_true, if_false, Nat.add_zero] at h ⊢
          rw [List.countP_append, hc0]
          simpa using hlt h
        · intro h
          simp only [List.countP_cons, hop, Bool.false_eq_true, if_false, Nat.add_zero] at h ⊢
          rw [List.countP_append, hc0]
          simpa using hge h
      | early data e ev0 hop hE hE1 hR hP2 hP1 hc hq hmsg hmsg2 =>
        obtain ⟨ev1, hev1, hle⟩ := run_events_grow config S ops s2 s1 _ hops1 hrun hE1
        have := hfin ev1 hev1
        omega

/-- C3, the claim fails: with two configured relays, after `REQ` for "s1", two
EOSE records for "s1" that both come from the connection 7, one distinct
backend and so fewer than two, put the merged EOSE on the outbound queue. -/
theorem EOSE_same_backend_twice :
    eoseBackends "s1" [Op.upstream 7 (some eoseS1), Op.upstream 7 (some eoseS1)] = 1 ∧
    1 < configTwo.Relays.length ∧
    REQ configTwo emptySession reqS1 = some sessionAfterREQ ∧
    run configTwo sessionAfterREQ [Op.upstream 7 (some eoseS1), Op.upstream 7 (some eoseS1)]
      = some sessionAfterQuorum ∧
    sessionAfterQuorum.UpstreamMessage = sessionAfterREQ.UpstreamMessage ++ [eoseS1] ∧
    isEOSEMsg "s1" eoseS1 = true := by
  refine ⟨by decide, by decide, rfl, rfl, rfl, rfl⟩

/-- C3, amended: with N configured relays (N below 2^63), after `REQ` for `S`
and along steps that hold no `REQ` and no `CLOSE` for `S` and leave at most 500
ids in the dedup set of `S` (the early path has not run), no EOSE for `S` is
put on the outbound queue while fewer than N EOSE records for `S` (at least
one) have been processed, the counter then being the number of those records,
whichever connections they came from; and exactly one EOSE for `S` is on the
queue, with the counter removed, once N of them have been. -/
theorem EOSE_quorum (config : Config) (S : String) (tag : JSON) (filters : List JSON)
    (s s0 s1 : Session) (ops : List Op)
    (hN : config.Relays.length < 2 ^ 63)
    (hreq : REQ config s (tag :: JSON.str S :: filters) = some s0)
    (hops : ∀ op ∈ ops, Op.isREQFor S op = false ∧ Op.isCLOSEFor S op = false)
    (hrun : run config s0 ops = some s1)
    (hfin : ∀ ev1, s1.Event_IDs.get S = some ev1 → ev1.card ≤ 500) :
    ∃ new, s1.UpstreamMessage = s0.UpstreamMessage ++ new ∧
      (ops.countP (Op.isEOSEFor S) < max config.Relays.length 1 →
        new.countP (isEOSEMsg S) = 0 ∧
        s1.PendingEOSE.get S = some ((ops.countP (Op.isEOSEFor S) : Nat) : Int)) ∧
      (max config.Relays.length 1 ≤ ops.countP (Op.isEOSEFor S) →
        new.countP (isEOSEMsg S) = 1 ∧ s1.PendingEOSE.get S = none) := by
  rw [REQ_eq] at hreq
  simp only [Option.some.injEq] at hreq
  subst hreq
  have h := run_quorum config S hN ops _ s1 0 hops hrun
    (by simp [GoMap.get_set_self]) (by omega) ⟨∅, by simp [GoMap.get_set_self]⟩ hfin
  simpa using h

/-- C3, amended, with two relays: after `REQ` for "s1" one EOSE record leaves
the queue empty, and two EOSE records, from the connections 7 and 8, put
exactly one EOSE on it. -/
theorem EOSE_quorum_witness :
    configTwo.Relays.length < 2 ^ 63 ∧
    REQ configTwo emptySession reqS1 = some sessionAfterREQ ∧
    run configTwo sessionAfterREQ [Op.upstream 7 (some eoseS1), Op.upstream 8 (some eoseS1)]
      = some sessionAfterQuorum ∧
    ∃ new, sessionAfterQuorum.UpstreamMessage = sessionAfterREQ.UpstreamMessage ++ new ∧
      new.countP (isEOSEMsg "s1") = 1 ∧ sessionAfterQuorum.PendingEOSE.get "s1" = none := by
  have hfin : ∀ ev1, sessionAfterQuorum.Event_IDs.get "s1" = some ev1 → ev1.card ≤ 500 := by
    intro ev1 h
    have h0 : sessionAfterQuorum.Event_IDs.get "s1" = some ∅ := rfl
    rw [h0] at h
    cases h
    simp
  obtain ⟨new, hq, _, hge⟩ := EOSE_quorum configTwo "s1" (JSON.str "REQ") [JSON.obj []]
    emptySession sessionAfterREQ sessionAfterQuorum
    [Op.upstream 7 (some eoseS1), Op.upstream 8 (some eoseS1)]
    (by decide) rfl (by decide) rfl hfin
  exact ⟨by decide, rfl, rfl, new, hq, hge (by decide)⟩

/-! ## The early EOSE -/

/-- C4: on a session where `S` has a dedup set and a pending counter, the
`HasEvent(S, E)` call after which the dedup set holds more than 500 ids puts
exactly `["EOSE", S]` on the outbound queue and removes the counter, and from
then on, along steps without a `REQ` for `S`, every `HandleUpstreamEOSE` for
`S` leaves the session as it is; the call after which the set holds 500 ids or
fewer puts nothing on the queue and keeps the counter. -/
theorem HasEvent_early_EOSE (config : Config) (S E : String) (s : Session)
    (ev : Finset String) (n : Int)
    (hE : s.Event_IDs.get S = some ev) (hP : s.PendingEOSE.get S = some n) :
    (HasEvent s S E).1.Event_IDs.get S = some (insert E ev) ∧
    (500 < (insert E ev).card →
      (HasEvent s S E).1.UpstreamMessage
        = s.UpstreamMessage ++ [[JSON.str "EOSE", JSON.str S]] ∧
      (HasEvent s S E).1.PendingEOSE.get S = none ∧
      ∀ (ops : List Op) (s1 : Session), (∀ op ∈ ops, Op.isREQFor S op = false) →
        run config (HasEvent s S E).1 ops = some s1 →
        ∀ (d0 : JSON) (rest : List JSON),
          HandleUpstreamEOSE config s1 (d0 :: JSON.str S :: rest) = some s1) ∧
    ((insert E ev).card ≤ 500 →
      (HasEvent s S E).1.UpstreamMessage = s.UpstreamMessage ∧
      (HasEvent s S E).1.PendingEOSE.get S = some n) := by
  obtain ⟨_, _, hEget, hdisj⟩ := HasEvent_known s S E ev hE
  refine ⟨by rw [hEget]; simp, ?_, ?_⟩
  · intro hc
    rcases hdisj with ⟨_, _, hpget, hq⟩ | ⟨hc2, _, _⟩
    · have hnone : (HasEvent s S E).1.PendingEOSE.get S = none := by rw [hpget]; simp
      refine ⟨hq, hnone, ?_⟩
      intro ops s1 hreq hrun d0 rest
      obtain ⟨new, _, hb⟩ := run_eose_budget config S ops _ s1 hreq hrun
      have hpc : pendingCount S (HasEvent s S E).1 = 0 := by simp [pendingCount, hnone]
      have hp1 : s1.PendingEOSE.get S = none := by
        cases hx : s1.PendingEOSE.get S with
        | none => rfl
        | some v =>
          have : pendingCount S s1 = 1 := by simp [pendingCount, hx]
          omega
      simp [HandleUpstreamEOSE, hp1]
    · rcases hc2 with hc2 | hc2
      · omega
      · rw [hP] at hc2; cases hc2
  · intro hc
    rcases hdisj with ⟨hc2, _⟩ | ⟨_, hp, hq⟩
    · omega
    · exact ⟨hq, by rw [hp, hP]⟩

theorem ids500_card : ids500.card = 500 := by
  unfold ids500
  rw [Finset.card_image_of_injective]
  · simp
  · intro a b hab
    have h1 : List.replicate a 'a' = List.replicate b 'a' := by
      simpa using congrArg String.data hab
    simpa using congrArg List.length h1

theorem ids500_fresh : "e" ∉ ids500 := by
  unfold ids500
  intro h
  obtain ⟨k, _, hk⟩ := Finset.mem_image.mp h
  have h1 : List.replicate k 'a' = ['e'] := by
    simpa using congrArg String.data hk
  have h2 : k = 1 := by simpa using congrArg List.length h1
  subst h2
  simp at h1

/-- C4 at a session where "s1" holds 500 ids and is pending: the 501st id "e"
makes `HasEvent` put `["EOSE", "s1"]` on the queue and remove the counter, and
a later EOSE record for "s1" changes nothing. -/
theorem HasEvent_early_EOSE_witness :
    sessionAtThreshold.Event_IDs.get "s1" = some ids500 ∧
    sessionAtThreshold.PendingEOSE.get "s1" = some 0 ∧
    (insert "e" ids500).card = 501 ∧
    (HasEvent sessionAtThreshold "s1" "e").1.UpstreamMessage
      = [[JSON.str "EOSE", JSON.str "s1"]] ∧
    (HasEvent sessionAtThreshold "s1" "e").1.PendingEOSE.get "s1" = none ∧
    HandleUpstreamEOSE configTwo (HasEvent sessionAtThreshold "s1" "e").1 eoseS1
      = some (HasEvent sessionAtThreshold "s1" "e").1 := by
  have hcard : (insert "e" ids500).card = 501 := by
    rw [Finset.card_insert_of_not_mem ids500_fresh, ids500_card]
  obtain ⟨_, h1, _⟩ := HasEvent_early_EOSE configTwo "s1" "e" sessionAtThreshold ids500 0
    rfl rfl
  obtain ⟨hq, hp, hlater⟩ := h1 (by omega)
  exact ⟨rfl, rfl, hcard, hq, hp,
    hlater [] _ (by simp) rfl (JSON.str "EOSE") []⟩

/-- C1 with two relays: the event "e1" of "s1" arrives from the connections 7
and 8 and is put on the queue once; and after the `HasEvent` that returned
false for it, a further EVENT record, then `HasEvent`, finds it seen. -/
theorem EVENT_at_most_once_witness :
    run configTwo sessionAfterREQ
      [Op.upstream 7 (some eventS1E1), Op.upstream 8 (some eventS1E1)]
      = some sessionDelivered ∧
    (∃ new, sessionDelivered.UpstreamMessage = sessionAfterREQ.UpstreamMessage ++ new ∧
      new.countP (isEVENTMsg "s1" "e1") ≤ 1) ∧
    HasEvent sessionAfterREQ "s1" "e1" = (sessionSeen, false) ∧
    run configTwo sessionSeen [Op.upstream 8 (some eventS1E1)] = some sessionSeen ∧
    (HasEvent sessionSeen "s1" "e1").2 = true := by
  have h1 := EVENT_at_most_once configTwo "s1" "e1" sessionAfterREQ sessionDelivered
    [Op.upstream 7 (some eventS1E1), Op.upstream 8 (some eventS1E1)] (by decide) rfl
  have h2 := EVENT_at_most_once configTwo "s1" "e1" sessionSeen sessionSeen
    [Op.upstream 8 (some eventS1E1)] (by decide) rfl
  exact ⟨rfl, h1.1, rfl, rfl, h2.2 sessionAfterREQ rfl⟩

/-- C2 with two relays: after `REQ` for "s1", three EOSE records for "s1" put
one EOSE on the queue. -/
theorem EOSE_at_most_once_witness :
    run configTwo sessionAfterREQ
      [Op.upstream 7 (some eoseS1), Op.upstream 8 (some eoseS1), Op.upstream 7 (some eoseS1)]
      = some sessionAfterQuorum ∧
    ∃ new, sessionAfterQuorum.UpstreamMessage = sessionAfterREQ.UpstreamMessage ++ new ∧
      new.countP (isEOSEMsg "s1") ≤ 1 := by
  exact ⟨rfl, EOSE_at_most_once configTwo "s1" sessionAfterREQ sessionAfterQuorum
    [Op.upstream 7 (some eoseS1), Op.upstream 8 (some eoseS1), Op.upstream 7 (some eoseS1)]
    (by decide) rfl⟩

/-! ## Coherence of the registries -/

theorem step_Coherent (config : Config) (s s1 : Session) (op : Op)
    (h : step config s op = some s1) (hc : Coherent s) : Coherent s1 := by
  intro k hk
  cases step_effect config k s s1 op h with
  | neutral new hE hP hR hq hnew hop =>
    rw [hR] at hk
    rw [hE, hP]
    exact hc k hk
  | closed new hop hE hP hq hnew => exact ⟨hE, hP⟩
  | opened hop hR => exact absurd hk hR
  | fire data n hop hP hn hE hR hP1 hq hm hm2 =>
    rw [hR] at hk
    rw [(hc k hk).2] at hP
    cases hP
  | count n hop hP hn hE hR hP1 hq =>
    rw [hR] at hk
    rw [(hc k hk).2] at hP
    cases hP
  | event data e ev hop hE hE1 hR hP hc2 hq hm hm2 =>
    rw [hR] at hk
    rw [(hc k hk).1] at hE
    cases hE
  | early data e ev hop hE hE1 hR hP hP1 hc2 hq hm hm2 =>
    rw [hR] at hk
    rw [(hc k hk).1] at hE
    cases hE

/-- Coherence is kept by every run, so every session reached from the empty
session is coherent. -/
theorem run_Coherent (config : Config) :
    ∀ (ops : List Op) (s s1 : Session), Coherent s → run config s ops = some s1 →
      Coherent s1 := by
  intro ops
  induction ops with
  | nil =>
    intro s s1 hc hrun
    simp only [run, Option.some.injEq] at hrun
    subst hrun
    exact hc
  | cons op ops ih =>
    intro s s1 hc hrun
    cases hs : step config s op with
    | none => simp [run, hs] at hrun
    | some s2 =>
      simp only [run, hs] at hrun
      exact ih s2 s1 (step_Coherent config s s2 op hs hc) hrun

/-! ## A re-subscription starts afresh -/

theorem step_fresh_kept (config : Config) (S E : String) (s s1 : Session) (op : Op)
    (h : step config s op = some s1) (hreq : Op.isREQFor S op = false)
    (hclose : Op.isCLOSEFor S op = false) (harr : Op.isEVENTFor S E op = false)
    (ev : Finset String) (hev : s.Event_IDs.get S = some ev) (hE : E ∉ ev)
    (hsub : s.Sub_IDs.get S ≠ none) :
    ∃ ev1, s1.Event_IDs.get S = some ev1 ∧ E ∉ ev1 ∧ s1.Sub_IDs.get S ≠ none := by
  have hins : ∀ (e : String) (data : List JSON) (conn : Nat),
      (∀ E, isEVENTMsg S E data = decide (e = E)) → op = Op.upstream conn (some data) →
      E ∉ insert e ev := by
    intro e data conn hm2 hrec
    rw [hrec] at harr
    have h1 : isEVENTMsg S E data = false := harr
    rw [hm2 E] at h1
    have h2 : ¬ e = E := by simpa using h1
    intro hmem
    rcases Finset.mem_insert.mp hmem with h3 | h3
    · exact h2 h3.symm
    · exact hE h3
  cases step_effect config S s s1 op h with
  | neutral new hE1 hP hR hq hnew hop => exact ⟨ev, by rw [hE1, hev], hE, by rw [hR]; exact hsub⟩
  | closed new hop hE1 hP hq hnew => rw [hclose] at hop; cases hop
  | opened hop hR => rw [hreq] at hop; cases hop
  | fire data n hop hP hn hE1 hR hP1 hq hm hm2 =>
    exact ⟨ev, by rw [hE1, hev], hE, by rw [hR]; exact hsub⟩
  | count n hop hP hn hE1 hR hP1 hq => exact ⟨ev, by rw [hE1, hev], hE, by rw [hR]; exact hsub⟩
  | event data e ev0 hop hE0 hE1 hR hP hc hq hm hm2 conn hrec =>
    rw [hev] at hE0
    cases hE0
    exact ⟨_, hE1, hins e data conn hm2 hrec, by rw [hR]; exact hsub⟩
  | early data e ev0 hop hE0 hE1 hR hP hP1 hc hq hm hm2 conn hrec =>
    rw [hev] at hE0
    cases hE0
    exact ⟨_, hE1, hins e data conn hm2 hrec, by rw [hR]; exact hsub⟩

theorem run_fresh_kept (config : Config) (S E : String) :
    ∀ (ops : List Op) (s s1 : Session) (ev : Finset String),
      (∀ op ∈ ops, Op.isREQFor S op = false ∧ Op.isCLOSEFor S op = false ∧
        Op.isEVENTFor S E op = false) →
      run config s ops = some s1 → s.Event_IDs.get S = some ev → E ∉ ev →
      s.Sub_IDs.get S ≠ none →
      ∃ ev1, s1.Event_IDs.get S = some ev1 ∧ E ∉ ev1 ∧ s1.Sub_IDs.get S ≠ none := by
  intro ops
  induction ops with
  | nil =>
    intro s s1 ev _ hrun hev hE hsub
    simp only [run, Option.some.injEq] at hrun
    subst hrun
    exact ⟨ev, hev, hE, hsub⟩
  | cons op ops ih =>
    intro s s1 ev hops hrun hev hE hsub
    cases hs : step config s op with
    | none => simp [run, hs] at hrun
    | some s2 =>
      simp only [run, hs] at hrun
      obtain ⟨h1, h2, h3⟩ := hops op (List.mem_cons_self _ _)
      obtain ⟨ev2, hev2, hE2, hsub2⟩ :=
        step_fresh_kept config S E s s2 op hs h1 h2 h3 ev hev hE hsub
      exact ih s2 s1 ev2 (fun o ho => hops o (List.mem_cons_of_mem _ ho)) hrun hev2 hE2 hsub2

theorem NewConn_route_unseen (config : Config) (S E : String) (s : Session)
    (ev : Finset String) (hev : s.Event_IDs.get S = some ev) (hE : E ∉ ev)
    (hsub : s.Sub_IDs.get S ≠ none) (event : List (String × JSON)) (rest : List JSON)
    (hid : GoMap.get event "id" = some (JSON.str E)) :
    ∃ s1 pre, NewConn_route config s
        (some (JSON.str "EVENT" :: JSON.str S :: JSON.obj event :: rest)) = some s1 ∧
      s1.UpstreamMessage = s.UpstreamMessage ++ pre ++
        [JSON.str "EVENT" :: JSON.str S :: JSON.obj event :: rest] ∧
      (pre = [] ∨ pre = [[JSON.str "EOSE", JSON.str S]]) := by
  obtain ⟨h2, _, _, hdisj⟩ := HasEvent_known s S E ev hev
  have hfalse : (HasEvent s S E).2 = false := by rw [h2]; simp [hE]
  cases hs : s.Sub_IDs.get S with
  | none => exact absurd hs hsub
  | some fl =>
    have hroute : NewConn_route config s
        (some (JSON.str "EVENT" :: JSON.str S :: JSON.obj event :: rest))
        = some (WriteJSON (HasEvent s S E).1
            (JSON.str "EVENT" :: JSON.str S :: JSON.obj event :: rest)) := by
      simp only [NewConn_route, if_true, HandleUpstreamEVENT, hs, hid, hfalse,
        Bool.false_eq_true, if_false]
    rcases hdisj with ⟨_, _, _, hq⟩ | ⟨_, _, hq⟩
    · exact ⟨_, [[JSON.str "EOSE", JSON.str S]], hroute, by simp [WriteJSON, hq], Or.inr rfl⟩
    · exact ⟨_, [], hroute, by simp [WriteJSON, hq], Or.inl rfl⟩

/-- C6: after `REQ(id, filters)`, on any session, the dedup set of `id` is
empty, its pending counter is 0, the registry maps `id` to the supplied
filters, and every other subscription id keeps its dedup set, counter and
filters. A backend EVENT record for `id` routed right after the `REQ` is put on
the outbound queue whatever its event id; and after any steps that hold no
`REQ` and no `CLOSE` for `id` and no EVENT record of `id` with the event id
`E`, the EVENT record of `id` with the event id `E`, arriving for the first
time since the `REQ`, is put on the outbound queue, behind the early EOSE of
`id` when this record triggers it. -/
theorem REQ_fresh (config : Config) (s : Session) (tag : JSON) (id : String)
    (filters : List JSON) :
    ∃ s1, REQ config s (tag :: JSON.str id :: filters) = some s1 ∧
      s1.Event_IDs.get id = some ∅ ∧
      s1.PendingEOSE.get id = some 0 ∧
      s1.Sub_IDs.get id = some filters ∧
      (∀ k : String, k ≠ id →
        s1.Event_IDs.get k = s.Event_IDs.get k ∧
        s1.PendingEOSE.get k = s.PendingEOSE.get k ∧
        s1.Sub_IDs.get k = s.Sub_IDs.get k) ∧
      (∀ (E : String) (event : List (String × JSON)) (rest : List JSON),
        GoMap.get event "id" = some (JSON.str E) →
        ∃ s2, NewConn_route config s1
            (some (JSON.str "EVENT" :: JSON.str id :: JSON.obj event :: rest)) = some s2 ∧
          s2.UpstreamMessage = s1.UpstreamMessage ++
            [JSON.str "EVENT" :: JSON.str id :: JSON.obj event :: rest]) ∧
      (∀ (E : String) (ops : List Op) (s2 : Session) (event : List (String × JSON))
          (rest : List JSON),
        (∀ op ∈ ops, Op.isREQFor id op = false ∧ Op.isCLOSEFor id op = false ∧
          Op.isEVENTFor id E op = false) →
        run config s1 ops = some s2 →
        GoMap.get event "id" = some (JSON.str E) →
        ∃ s3 pre, NewConn_route config s2
            (some (JSON.str "EVENT" :: JSON.str id :: JSON.obj event :: rest)) = some s3 ∧
          s3.UpstreamMessage = s2.UpstreamMessage ++ pre ++
            [JSON.str "EVENT" :: JSON.str id :: JSON.obj event :: rest] ∧
          (pre = [] ∨ pre = [[JSON.str "EOSE", JSON.str id]])) := by
  refine ⟨_, REQ_eq config s tag id filters, ?_, ?_, ?_, ?_, ?_, ?_⟩
  · exact GoMap.get_set_self _ _ _
  · exact GoMap.get_set_self _ _ _
  · exact GoMap.get_set_self _ _ _
  · intro k hk
    simp only [GoMap.get_set_ne _ _ _ _ hk, GoMap.get_delete_ne _ _ _ hk, and_self]
  · intro E event rest hE
    simp [NewConn_route, HandleUpstreamEVENT, HasEvent, GoMap.get_set_self, hE, WriteJSON]
  · intro E ops s2 event rest hops hrun hid
    obtain ⟨ev2, hev2, hE2, hsub2⟩ := run_fresh_kept config id E ops _ s2 ∅ hops hrun
      (GoMap.get_set_self _ _ _) (Finset.not_mem_empty E)
      (by simp [GoMap.get_set_self])
    exact NewConn_route_unseen config id E s2 ev2 hev2 hE2 hsub2 event rest hid

/-- C6 at a session where "e1" has been delivered for "s1": after a new `REQ`
for "s1" the dedup set is empty and the counter is 0; the event "e2" then
arrives and is delivered, and the event "e1", arriving after it for the first
time since the `REQ`, is put on the queue again. -/
theorem REQ_fresh_witness :
    sessionDelivered.Event_IDs.get "s1" = some (insert "e1" ∅) ∧
    REQ configTwo sessionDelivered reqS1 = some sessionResubscribed ∧
    sessionResubscribed.Event_IDs.get "s1" = some ∅ ∧
    sessionResubscribed.PendingEOSE.get "s1" = some 0 ∧
    run configTwo sessionResubscribed [Op.upstream 7 (some eventS1E2)]
      = some sessionResubscribedE2 ∧
    NewConn_route configTwo sessionResubscribedE2 (some eventS1E1)
      = some sessionResubscribedE2E1 ∧
    ∃ pre, sessionResubscribedE2E1.UpstreamMessage
      = sessionResubscribedE2.UpstreamMessage ++ pre ++ [eventS1E1] := by
  obtain ⟨s1, h1, h2, h3, _, _, _, h7⟩ :=
    REQ_fresh configTwo sessionDelivered (JSON.str "REQ") "s1" [JSON.obj []]
  have h0 : REQ configTwo sessionDelivered reqS1 = some sessionResubscribed := rfl
  have hs1 : s1 = sessionResubscribed := Option.some.inj (h1.symm.trans h0)
  subst hs1
  obtain ⟨s3, pre, h8, h9, _⟩ := h7 "e1" [Op.upstream 7 (some eventS1E2)]
    sessionResubscribedE2 [("id", JSON.str "e1")] [] (by decide) rfl rfl
  have h10 : NewConn_route configTwo sessionResubscribedE2 (some eventS1E1)
      = some sessionResubscribedE2E1 := rfl
  have hs3 : s3 = sessionResubscribedE2E1 := Option.some.inj (h8.symm.trans h10)
  subst hs3
  exact ⟨rfl, h0, h2, h3, rfl, h10, pre, h9⟩

end Bouncer
